/-
  Verification of the hand-tracked Tetris core (tetris.js) against its
  natural-language specification.

  The JavaScript source is shallowly embedded below.  JavaScript numbers are
  modelled as `ℚ` (all arithmetic that the claims depend on is exact rational
  arithmetic; the two transcendental library calls `Math.sqrt` and
  `Math.atan2` — together with the degree conversion factor `180 / Math.PI` —
  only feed comparisons and stored feedback values, and are passed in as an
  explicit oracle `RMath`, so every theorem quantifying over the oracle covers
  the real library functions).  JavaScript object references to piece objects
  are modelled by a heap: pieces live in an association list indexed by a
  numeric id, and every reference (current piece, hold-slot stacks, per-hand
  targets) stores an id; `===` on pieces becomes id equality.  `Math.random`
  piece selection is modelled by a seed list of upcoming piece types stored in
  the state (`bag`), consumed one type per spawn.
-/
import Mathlib

/- The rational arithmetic primitives are `[irreducible]` in the library,
which blocks `decide`-style evaluation of concrete game states; restore the
default reducibility for this file. -/
attribute [local semireducible] Rat.add Rat.mul Rat.sub Rat.inv

/-- The seven tetromino types (keys of `SHAPES` in the source). -/
inductive Tet
  | I | O | T | S | Z | J | L
deriving DecidableEq, Repr

/-- `const COLS = 10`. -/
def COLS : Nat := 10

/-- `const ROWS = 20`. -/
def ROWS : Nat := 20

/-- `const CELL_SIZE = 24`. -/
def CELL_SIZE : ℚ := 24

/-- `const SPAWN_ZONE_HEIGHT = 220`. -/
def SPAWN_ZONE_HEIGHT : ℚ := 220

/-- `const SPAWN_TICKS = 6` (number of ticks the piece stays in the spawn zone). -/
def SPAWN_TICKS : Int := 6

/-- `const HOLD_SLOT_HEIGHT = 70`. -/
def HOLD_SLOT_HEIGHT : ℚ := 70

/-- `const HOLD_SLOT_WIDTH = 90`. -/
def HOLD_SLOT_WIDTH : ℚ := 90

/-- `const MAX_PER_HOLD = 3`. -/
def MAX_PER_HOLD : Nat := 3

/-- `const HOLD_SPAWN_DELAY = 2000`. -/
def HOLD_SPAWN_DELAY : ℚ := 2000

/-- `this.dropInterval = 600` (set once in the constructor, never reassigned). -/
def dropInterval : ℚ := 600

/-- `this.boardWidth = COLS * CELL_SIZE`. -/
def boardWidth : ℚ := (COLS : ℚ) * CELL_SIZE

/-- `this.boardHeight = ROWS * CELL_SIZE`. -/
def boardHeight : ℚ := (ROWS : ℚ) * CELL_SIZE

/-- The `SHAPES` table. -/
def SHAPES : Tet → List (List Bool)
  | .I => [[true, true, true, true]]
  | .O => [[true, true], [true, true]]
  | .T => [[false, true, false], [true, true, true]]
  | .S => [[false, true, true], [true, true, false]]
  | .Z => [[true, true, false], [false, true, true]]
  | .J => [[true, false, false], [true, true, true]]
  | .L => [[false, false, true], [true, true, true]]

/-- A board cell: `0` (empty) or a piece-type tag. -/
abbrev Cell := Option Tet

/-- The board grid, `ROWS` rows of `COLS` cells. -/
abbrev Board := List (List Cell)

/-- One empty row, `Array(COLS).fill(0)`. -/
def emptyRow : List Cell := List.replicate COLS none

/-- `createEmptyBoard()`. -/
def createEmptyBoard : Board := List.replicate ROWS emptyRow

/-- Read `this.board[yy][xx]` (only meaningful for in-range indices; the source
only reads the board behind bound checks). -/
def cellAt (b : Board) (yy xx : Int) : Cell :=
  if 0 ≤ yy ∧ 0 ≤ xx then (b.getD yy.toNat []).getD xx.toNat none else none

/-- Read `shape[r][c]` of a 0/1 shape matrix. -/
def shapeCell (shape : List (List Bool)) (r c : Nat) : Bool :=
  (shape.getD r []).getD c false

/-- The body of `canPlace` for a shape at grid position `(px, py)`: every
filled shape cell must be inside the horizontal bounds, above the bottom
bound, and (when its row is inside the board, `boardY ≥ 0`) on an empty board
cell.  Rows with `boardY < 0` only need the horizontal checks. -/
def canPlacePos (b : Board) (shape : List (List Bool)) (px py : Int) : Bool :=
  (List.range shape.length).all fun r =>
    (List.range ((shape.getD r []).length)).all fun c =>
      !(shapeCell shape r c) ||
        (let boardX := px + (c : Int)
         let boardY := py + (r : Int)
         decide (0 ≤ boardX) && decide (boardX < (COLS : Int)) &&
           decide (boardY < (ROWS : Int)) &&
           (decide (boardY < 0) || (cellAt b boardY boardX).isNone))

/-- The body of `canMove(dx, dy)` for a shape at `(px, py)`: the source's
per-cell checks are identical to `canPlace`'s, applied at the shifted cell. -/
def canMovePos (b : Board) (shape : List (List Bool)) (px py dx dy : Int) : Bool :=
  (List.range shape.length).all fun r =>
    (List.range ((shape.getD r []).length)).all fun c =>
      !(shapeCell shape r c) ||
        (let newX := px + (c : Int) + dx
         let newY := py + (r : Int) + dy
         decide (0 ≤ newX) && decide (newX < (COLS : Int)) &&
           decide (newY < (ROWS : Int)) &&
           (decide (newY < 0) || (cellAt b newY newX).isNone))

/-- A piece object.  `color` is omitted: it is the fixed render lookup
`SHAPE_COLORS[type]`, never read by the core logic. -/
structure Piece where
  type : Tet
  shape : List (List Bool)
  x : Int
  y : Int
  isGrabbed : Bool
  inPlayZone : Bool
  screenX : ℚ
  screenY : ℚ
  targetScreenX : ℚ
  targetScreenY : ℚ
deriving DecidableEq, Repr

/-- `canPlace(piece)`. -/
def canPlacePiece (b : Board) (p : Piece) : Bool :=
  canPlacePos b p.shape p.x p.y

/-- The rotated matrix built by `rotatePiece`: `rotated[c][i] =
shape[rows - 1 - i][c]` (transpose of the row-reversed matrix, a clockwise
quarter turn). -/
def rotateShape (shape : List (List Bool)) : List (List Bool) :=
  let rows := shape.length
  let cols := (shape.getD 0 []).length
  (List.range cols).map fun c =>
    (List.range rows).map fun i => shapeCell shape (rows - 1 - i) c

/-- The wall-kick column offsets `[-1, 1, -2, 2]` tried by `rotatePiece`,
preceded by the in-place attempt (offset `0`). -/
def kickOffsets0 : List Int := [0, -1, 1, -2, 2]

/-- `rotatePiece(piece)` as a pure function of the board and the piece.  The
source's kick loop mutates `piece.x += kick` and restores `piece.x -= kick` on
each failed attempt, so its net effect is: first offset (in the fixed order
`0, -1, 1, -2, 2`) whose placement is valid wins; if none is valid both the
shape and the x coordinate are back at their pre-rotation values.  The loop is
unrolled below. -/
def rotatePieceP (b : Board) (p : Piece) : Piece :=
  if p.type = Tet.O then p
  else
    let rotated := rotateShape p.shape
    if canPlacePos b rotated p.x p.y then { p with shape := rotated }
    else if canPlacePos b rotated (p.x + -1) p.y then { p with shape := rotated, x := p.x + -1 }
    else if canPlacePos b rotated (p.x + 1) p.y then { p with shape := rotated, x := p.x + 1 }
    else if canPlacePos b rotated (p.x + -2) p.y then { p with shape := rotated, x := p.x + -2 }
    else if canPlacePos b rotated (p.x + 2) p.y then { p with shape := rotated, x := p.x + 2 }
    else p

/-- Write one cell of the board (in-range indices only). -/
def setCell (b : Board) (yy xx : Nat) (c : Cell) : Board :=
  b.set yy ((b.getD yy []).set xx c)

/-- The body of `lockPiece()`: copy every filled shape cell whose row is
within `0 ≤ boardY < ROWS` into the board, tagged with the piece type.  (The
source does not guard `boardX`; out-of-range writes would create phantom array
properties that no reader of the 10 board columns ever sees, so they are
modelled as no-ops.) -/
def lockBoard (b : Board) (shape : List (List Bool)) (px py : Int) (t : Tet) : Board :=
  (List.range shape.length).foldl
    (fun acc r =>
      (List.range ((shape.getD r []).length)).foldl
        (fun acc2 c =>
          if shapeCell shape r c ∧ 0 ≤ py + (r : Int) ∧ py + (r : Int) < (ROWS : Int) ∧
              0 ≤ px + (c : Int) then
            setCell acc2 (py + (r : Int)).toNat (px + (c : Int)).toNat (some t)
          else acc2)
        acc)
    b

/-- `row.every(cell => cell !== 0)`. -/
def isFullRow (r : List Cell) : Bool := r.all fun c => c.isSome

/-- Whether row `i` of the board exists and is full. -/
def fullAt (b : Board) (i : Nat) : Bool :=
  match b[i]? with
  | some r => isFullRow r
  | none => false

/-- The `clearLines()` scan: starting from the bottom, a full row is spliced
out and an empty row is unshifted at the top, after which the same index is
re-examined (`row++` before the loop's `row--`); otherwise the scan moves up
one row.  Fuel bounds the iteration count (each step either moves the index
down or removes one of the finitely many full rows). -/
def clearLinesAux : Nat → Board → Nat → Board
  | 0, b, _ => b
  | fuel + 1, b, i =>
    if fullAt b i then clearLinesAux fuel (emptyRow :: b.eraseIdx i) i
    else if i = 0 then b
    else clearLinesAux fuel b (i - 1)

/-- `clearLines()` on a board.  `2 * ROWS` fuel suffices: the index walks down
`ROWS` positions and at most `ROWS` rows can be removed. -/
def clearLines (b : Board) : Board := clearLinesAux (2 * ROWS) b (ROWS - 1)

/-- The interaction states (`INTERACTION_STATES`). -/
inductive IState
  | IDLE | TARGETING | GRABBING | DRAGGING
deriving DecidableEq, Repr

/-- The two hands. -/
inductive Side
  | left | right
deriving DecidableEq, Repr

/-- The opposite hand (`side === 'left' ? 'right' : 'left'`). -/
def Side.other : Side → Side
  | .left => .right
  | .right => .left

/-- One per-hand interaction record.  `target` and the hold stacks store piece
ids into the piece heap (JavaScript object references).  `currentRotation` is
`none` while the JS field is `undefined`; `circleAngle` and `circleRadius`
are render feedback, written before ever being read. -/
structure Interaction where
  state : IState
  target : Option Nat
  grabOffset : Option (ℚ × ℚ)
  smoothedPos : Option (ℚ × ℚ)
  grabAngle : Option ℚ
  lastRotateTime : ℚ
  isPlayZoneGrab : Bool
  grabX : ℚ
  lastMoveTime : ℚ
  currentRotation : Option Int
  circleAngle : ℚ
  circleRadius : ℚ
  pieceCenter : Option (ℚ × ℚ)
deriving DecidableEq, Repr

/-- One hold slot.  `pieces` is the stack of piece ids, bottom first. -/
structure Hold where
  pieces : List Nat
  type : Option Tet
  x : ℚ
  y : ℚ
  isTargeted : Bool
  side : Side
deriving DecidableEq, Repr

/-- `this.layout`. -/
structure Layout where
  offsetX : ℚ
  offsetY : ℚ
  spawnZoneTop : ℚ
  spawnZoneBottom : ℚ
  holdLeftX : ℚ
  holdRightX : ℚ
deriving DecidableEq, Repr

/-- The whole `Tetris` instance state.  `pieces` is the heap of piece objects
(association list id ↦ piece, ids allocated by `nextId`); `bag` is the
injected random source consumed by `spawnPiece`. -/
structure GameState where
  board : Board
  currentPiece : Option Nat
  lastDropTime : ℚ
  holds : List Hold
  lastHoldTime : ℚ
  pendingSpawn : Bool
  interLeft : Interaction
  interRight : Interaction
  layout : Layout
  isDraggingPiece : Bool
  draggedPiece : Option Nat
  pieces : List (Nat × Piece)
  nextId : Nat
  bag : List Tet
deriving DecidableEq, Repr

/-- `this.interactionState[side]`. -/
def getInter (s : GameState) : Side → Interaction
  | .left => s.interLeft
  | .right => s.interRight

/-- Write `this.interactionState[side]`. -/
def setInter (s : GameState) : Side → Interaction → GameState
  | .left, it => { s with interLeft := it }
  | .right, it => { s with interRight := it }

/-- Dereference a piece id in the heap. -/
def lookupPiece (s : GameState) (pid : Nat) : Option Piece :=
  (s.pieces.find? fun e => e.1 == pid).map (·.2)

/-- Mutate the piece object with id `pid` (a JS field assignment through a
reference). -/
def setPiece (s : GameState) (pid : Nat) (f : Piece → Piece) : GameState :=
  { s with pieces := s.pieces.map fun e => if e.1 == pid then (e.1, f e.2) else e }

/-- Placeholder piece for defensive dereferences that cannot fail in the
source (a JS reference always points at an object). -/
def defaultPiece : Piece :=
  { type := Tet.O, shape := SHAPES Tet.O, x := 0, y := 0, isGrabbed := false,
    inPlayZone := false, screenX := 0, screenY := 0, targetScreenX := 0, targetScreenY := 0 }

/-- Dereference with the defensive default. -/
def getPieceD (s : GameState) (pid : Nat) : Piece :=
  (lookupPiece s pid).getD defaultPiece

/-- Placeholder hold for index lookups that are guaranteed in range. -/
def defaultHold : Hold :=
  { pieces := [], type := none, x := 0, y := 0, isTargeted := false, side := Side.left }

/-- Replace element `i` of a list by `f` of it (an in-place mutation of one
array slot). -/
def modifyIdx : List α → Nat → (α → α) → List α
  | [], _, _ => []
  | a :: l, 0, f => f a :: l
  | a :: l, i + 1, f => a :: modifyIdx l i f

/-- Oracle for the transcendental library functions: `sqrt` is `Math.sqrt`,
`atan2 dy dx` is `Math.atan2(dy, dx)`, and `toDeg` is multiplication by
`180 / Math.PI`.  Theorems quantify over this structure, so they hold in
particular for the real library functions. -/
structure RMath where
  sqrt : ℚ → ℚ
  atan2 : ℚ → ℚ → ℚ
  toDeg : ℚ → ℚ

/-- One tracked landmark position, normalized coordinates. -/
structure Landmark where
  x : ℚ
  y : ℚ
deriving DecidableEq, Repr

/-- The landmarks the core reads for one hand, plus that hand's pinch
distance (`pinchDistances[side]`, only read when the hand is present). -/
structure HandInput where
  wrist : Landmark
  middleMCP : Landmark
  thumb : Landmark
  indexTip : Landmark
  dist : ℚ
deriving DecidableEq, Repr

/-- The per-frame arguments of `update`, plus `perfNow`: the value the
ambient clock `performance.now()` would return during this frame (the source
reads it inside `handleDrop`). -/
structure Input where
  time : ℚ
  handsPresent : Bool
  left : Option HandInput
  right : Option HandInput
  w : ℚ
  h : ℚ
  perfNow : ℚ
deriving DecidableEq, Repr

/-- `hands[side]`. -/
def Input.hand (i : Input) : Side → Option HandInput
  | .left => i.left
  | .right => i.right

/-- `calculateWristAngle(landmarks)` (hand present). -/
def calculateWristAngle (rm : RMath) (hand : HandInput) : ℚ :=
  rm.toDeg (rm.atan2 (hand.middleMCP.y - hand.wrist.y) (hand.middleMCP.x - hand.wrist.x))

/-- `spawnPiece()`: take the next type from the injected random source,
center it horizontally and start it `SPAWN_TICKS` ticks above row 0; allocate
the object in the heap and make it the current piece. -/
def spawnPiece (s : GameState) : GameState :=
  let t := s.bag.headD Tet.I
  let shape := SHAPES t
  let p : Piece :=
    { type := t, shape := shape,
      x := ((COLS : Int) - ((shape.getD 0 []).length : Int)) / 2,
      y := -SPAWN_TICKS - (shape.length : Int),
      isGrabbed := false, inPlayZone := false,
      screenX := 0, screenY := 0, targetScreenX := 0, targetScreenY := 0 }
  { s with pieces := s.pieces ++ [(s.nextId, p)], currentPiece := some s.nextId,
           nextId := s.nextId + 1, bag := s.bag.tail }

/-- `canMove(dx, dy)` on the current piece. -/
def canMove (s : GameState) (dx dy : Int) : Bool :=
  match s.currentPiece with
  | none => false
  | some cid =>
    match lookupPiece s cid with
    | none => false
    | some p => canMovePos s.board p.shape p.x p.y dx dy

/-- `rotatePiece(this.currentPiece)` at the state level. -/
def rotateCurrent (s : GameState) : GameState :=
  match s.currentPiece with
  | none => s
  | some cid => setPiece s cid fun q => rotatePieceP s.board q

/-- `lockPiece()`. -/
def lockPieceS (s : GameState) : GameState :=
  match s.currentPiece with
  | none => s
  | some cid =>
    match lookupPiece s cid with
    | none => s
    | some p => { s with board := lockBoard s.board p.shape p.x p.y p.type }

/-- `clearLines()` at the state level. -/
def clearLinesS (s : GameState) : GameState :=
  { s with board := clearLines s.board }

/-- `dropPiece()`: spawn-zone descent, gravity descent, or lock + clear +
respawn. -/
def dropPiece (s : GameState) : GameState :=
  match s.currentPiece with
  | none => s
  | some cid =>
    match lookupPiece s cid with
    | none => s
    | some p =>
      if p.isGrabbed then s
      else if p.y < 0 then
        let s1 := setPiece s cid fun q => { q with y := q.y + 1 }
        if p.y + 1 ≥ 0 then setPiece s1 cid fun q => { q with inPlayZone := true } else s1
      else if canMove s 0 1 then setPiece s cid fun q => { q with y := q.y + 1 }
      else spawnPiece (clearLinesS (lockPieceS s))

/-- The `while (this.canMove(0, 1)) this.currentPiece.y++` loop of
`hardDrop`, fuel-bounded.  For any shape with at least one filled cell the
loop stops before `py` passes `ROWS`, so the fuel chosen in `hardDrop` is
never exhausted (on an all-empty shape the JS loop would not terminate; such
shapes do not occur). -/
def slideDown (b : Board) (shape : List (List Bool)) (px : Int) : Nat → Int → Int
  | 0, py => py
  | fuel + 1, py =>
    if canMovePos b shape px py 0 1 then slideDown b shape px fuel (py + 1) else py

/-- `hardDrop()`: drop the current piece all the way down, lock it, clear
lines, spawn the next piece. -/
def hardDrop (s : GameState) : GameState :=
  match s.currentPiece with
  | none => s
  | some cid =>
    match lookupPiece s cid with
    | none => s
    | some p =>
      let fuel := ((ROWS : Int) - p.y).toNat + 1
      let y' := slideDown s.board p.shape p.x fuel p.y
      let s1 := setPiece s cid fun q => { q with y := y' }
      spawnPiece (clearLinesS (lockPieceS s1))

/-- `removeFromHolds(piece)`: splice the piece out of the first hold that
contains it, resetting the slot's type tag when the slot becomes empty. -/
def removeFromHolds (s : GameState) (pid : Nat) : GameState :=
  match s.holds.findIdx? (fun h => h.pieces.contains pid) with
  | none => s
  | some i =>
    { s with holds := modifyIdx s.holds i fun h =>
        let ps := h.pieces.erase pid
        { h with pieces := ps, type := if ps.isEmpty then none else h.type } }

/-- `findHoldContaining(piece)` (index of the hold). -/
def findHoldContaining (s : GameState) (pid : Nat) : Option Nat :=
  s.holds.findIdx? fun h => h.pieces.contains pid

/-- The hold-slot hit rectangle with its 10-pixel tolerance margin, as tested
in `handleDrop` and in the hold-targeting feedback. -/
def holdContains (h : Hold) (x y : ℚ) : Bool :=
  decide (x ≥ h.x - 10) && decide (x ≤ h.x + HOLD_SLOT_WIDTH + 10) &&
    decide (y ≥ h.y - 10) && decide (y ≤ h.y + HOLD_SLOT_HEIGHT + 10)

/-- `hold.pieces.length < MAX_PER_HOLD && (hold.type === null || hold.type ===
piece.type)`. -/
def canAddHold (h : Hold) (t : Tet) : Bool :=
  decide (h.pieces.length < MAX_PER_HOLD) && (h.type == none || h.type == some t)

/-- `handleDrop(piece, x, y)`.  `now` is the ambient clock: the source sets
`this.lastHoldTime = performance.now()` here.  The first hold whose rectangle
contains the drop point is tested; if it cannot accept the piece nothing
happens.  Otherwise the spawn-zone rectangle is tested, releasing a held
piece back into play (with an optional swap of the spawn-zone current piece
into the vacated slot). -/
def handleDrop (now : ℚ) (s : GameState) (pid : Nat) (x y : ℚ) : GameState :=
  match lookupPiece s pid with
  | none => s
  | some piece =>
    match s.holds.findIdx? (fun h => holdContains h x y) with
    | some i =>
      let hold := s.holds.getD i defaultHold
      if canAddHold hold piece.type then
        let s1 :=
          if s.currentPiece == some pid then
            { s with currentPiece := none, lastHoldTime := now, pendingSpawn := true }
          else removeFromHolds s pid
        let s2 := setPiece s1 pid fun q => { q with inPlayZone := false }
        { s2 with holds := modifyIdx s2.holds i fun h =>
            { h with pieces := h.pieces ++ [pid], type := some piece.type } }
      else s
    | none =>
      if decide (x ≥ s.layout.offsetX) && decide (x ≤ s.layout.offsetX + boardWidth) &&
          decide (y ≥ s.layout.spawnZoneTop) && decide (y ≤ s.layout.spawnZoneBottom) then
        match findHoldContaining s pid with
        | none => s
        | some j =>
          let s1 := { s with holds := modifyIdx s.holds j fun h =>
              let ps := h.pieces.erase pid
              { h with pieces := ps, type := if ps.isEmpty then none else h.type } }
          let s2 :=
            match s1.currentPiece with
            | some cid =>
              match lookupPiece s1 cid with
              | some cur =>
                if !cur.inPlayZone then
                  let hj := s1.holds.getD j defaultHold
                  if canAddHold hj cur.type then
                    let s' := setPiece s1 cid fun q => { q with inPlayZone := false }
                    { s' with holds := modifyIdx s'.holds j fun h =>
                        { h with pieces := h.pieces ++ [cid], type := some cur.type } }
                  else s1
                else s1
              | none => s1
            | none => s1
          let s3 := { s2 with currentPiece := some pid }
          setPiece s3 pid fun q =>
            { q with x := ((COLS : Int) - ((q.shape.getD 0 []).length : Int)) / 2,
                     y := -SPAWN_TICKS - (q.shape.length : Int), inPlayZone := false }
      else s

/-- `findNearestGrabbablePiece(x, y)`: the current piece and the top piece of
each hold compete by screen distance (strict improvement, ties keep the
earlier candidate); returns id, distance and whether the winner is the
play-zone current piece. -/
def findNearestGrabbablePiece (rm : RMath) (s : GameState) (x y : ℚ) :
    Option (Nat × ℚ × Bool) :=
  let consider := fun (acc : Option (Nat × ℚ × Bool)) (pid : Nat) (isPZ : Bool) =>
    match lookupPiece s pid with
    | none => acc
    | some p =>
      let d := rm.sqrt ((x - p.screenX) * (x - p.screenX) + (y - p.screenY) * (y - p.screenY))
      match acc with
      | none => some (pid, d, isPZ)
      | some (_, dmin, _) => if d < dmin then some (pid, d, isPZ) else acc
  let acc0 : Option (Nat × ℚ × Bool) :=
    match s.currentPiece with
    | none => none
    | some cid => consider none cid (((lookupPiece s cid).map (·.inPlayZone)).getD false)
  s.holds.foldl
    (fun acc h =>
      match h.pieces.getLast? with
      | none => acc
      | some pid => consider acc pid false)
    acc0

/-- `getHandPosition()`: the smoothed position of the first hand (left before
right) that is in the `DRAGGING` state. -/
def getHandPosition (s : GameState) : Option (ℚ × ℚ) :=
  match s.interLeft.smoothedPos, s.interLeft.state with
  | some p, IState.DRAGGING => some p
  | _, _ =>
    match s.interRight.smoothedPos, s.interRight.state with
    | some p, IState.DRAGGING => some p
    | _, _ => none

/-- JavaScript truncating division rounding (toward zero), used by the `%`
operator on numbers. -/
def jsTrunc (q : ℚ) : Int := if q ≥ 0 then ⌊q⌋ else ⌈q⌉

/-- The JavaScript `%` operator on numbers: `a - b * trunc(a / b)`. -/
def jsMod (a b : ℚ) : ℚ := a - b * (jsTrunc (a / b) : ℚ)

/-- The quadrant-quantized rotation trigger shared by the two drag modes
(cooldown 200 in two-handed, 250 in single-handed mode): map the hand angle
to one of 4 quadrants; when the quadrant changed and the cooldown elapsed,
the wrapped signed difference picks one clockwise rotation call (positive) or
three (negative). -/
def rotationGesture (rm : RMath) (input : Input) (side : Side) (s : GameState)
    (cooldown : ℚ) (circleAngle : ℚ) : GameState :=
  let interaction := getInter s side
  let angleDeg := jsMod (rm.toDeg circleAngle + 360) 360
  let targetRotation : Int := (round (angleDeg / 90)).tmod 4
  let current : Int := interaction.currentRotation.getD 0
  if targetRotation ≠ current ∧ input.time - interaction.lastRotateTime > cooldown then
    let d0 := targetRotation - current
    let d1 := if d0 > 2 then d0 - 4 else d0
    let diff := if d1 < -2 then d1 + 4 else d1
    let s1 :=
      if diff > 0 then rotateCurrent s
      else if diff < 0 then rotateCurrent (rotateCurrent (rotateCurrent s))
      else s
    setInter s1 side
      { (getInter s1 side) with currentRotation := some targetRotation, lastRotateTime := input.time }
  else setInter s side { interaction with currentRotation := some current }

/-- The play-zone control applied while a hand drags the play-zone current
piece: two-handed mode splits movement (left hand) and rotation (right
hand); single-handed mode does both with mode-specific thresholds and
cooldowns. -/
def playZoneControl (rm : RMath) (input : Input) (side : Side) (s : GameState)
    (cid : Nat) (midX midY : ℚ) : GameState :=
  let interaction := getInter s side
  let otherInteraction := getInter s side.other
  let isTwoHanded := otherInteraction.isPlayZoneGrab &&
    (otherInteraction.state == IState.DRAGGING)
  let piece := getPieceD s cid
  let pieceX := piece.screenX
  let pieceY := piece.screenY
  let dx := midX - pieceX
  let dy := midY - pieceY
  let distFromPiece := rm.sqrt (dx * dx + dy * dy)
  if isTwoHanded then
    match side with
    | .left =>
      let moveX := midX - interaction.grabX
      let s1 :=
        if decide (|moveX| > 30) && decide (input.time - interaction.lastMoveTime > 100) then
          let direction : Int := if moveX > 0 then 1 else -1
          if canMove s direction 0 then
            let s' := setPiece s cid fun q => { q with x := q.x + direction }
            setInter s' side { (getInter s' side) with grabX := midX, lastMoveTime := input.time }
          else s
        else s
      setInter s1 side { (getInter s1 side) with pieceCenter := none }
    | .right =>
      let circleAngle := rm.atan2 dy dx
      let s1 := setInter s side
        { interaction with
            circleAngle := circleAngle
            circleRadius := 70
            pieceCenter := some (pieceX, pieceY) }
      if decide (distFromPiece > 30) then rotationGesture rm input side s1 200 circleAngle
      else s1
  else
    let circleAngle := rm.atan2 dy dx
    let s1 := setInter s side
      { interaction with
          circleAngle := circleAngle
          circleRadius := 70
          pieceCenter := some (pieceX, pieceY) }
    let s2 :=
      if decide (distFromPiece > 40) then rotationGesture rm input side s1 250 circleAngle
      else s1
    let interaction2 := getInter s2 side
    let moveX := midX - interaction2.grabX
    if decide (|moveX| > 35) && decide (input.time - interaction2.lastMoveTime > 120) then
      let direction : Int := if moveX > 0 then 1 else -1
      if canMove s2 direction 0 then
        let s' := setPiece s2 cid fun q => { q with x := q.x + direction }
        setInter s' side { (getInter s' side) with grabX := midX, lastMoveTime := input.time }
      else s2
    else s2

/-- One hand's pass of `handleHandInteraction`'s `forEach`: hand-loss reset,
smoothing, targeting and grabbing, or release/drag handling. -/
def handleHandSide (rm : RMath) (input : Input) (side : Side) (s : GameState) : GameState :=
  let interaction := getInter s side
  match input.hand side with
  | none =>
    let s1 :=
      match interaction.target with
      | some pid => setPiece s pid fun q => { q with isGrabbed := false }
      | none => s
    setInter s1 side { interaction with state := IState.IDLE, target := none, grabAngle := none }
  | some hand =>
    let dist := hand.dist
    let rawMidX := (1 - (hand.thumb.x + hand.indexTip.x) / 2) * input.w
    let rawMidY := ((hand.thumb.y + hand.indexTip.y) / 2) * input.h
    let sp := interaction.smoothedPos.getD (rawMidX, rawMidY)
    let smoothFactor : ℚ := if interaction.state = IState.DRAGGING then 1/2 else 3/10
    let midX := sp.1 + (rawMidX - sp.1) * smoothFactor
    let midY := sp.2 + (rawMidY - sp.2) * smoothFactor
    let interaction := { interaction with smoothedPos := some (midX, midY) }
    let canGrab := decide (dist < 9/100)
    let shouldRelease := decide (dist > 15/100)
    if interaction.state = IState.IDLE ∨ interaction.state = IState.TARGETING then
      let s1 := setInter s side interaction
      let nearest := findNearestGrabbablePiece rm s1 midX midY
      let interaction :=
        match nearest with
        | some (pid, d, isPZ) =>
          if d < 120 then
            { interaction with state := IState.TARGETING, target := some pid, isPlayZoneGrab := isPZ }
          else { interaction with state := IState.IDLE, target := none, isPlayZoneGrab := false }
        | none => { interaction with state := IState.IDLE, target := none, isPlayZoneGrab := false }
      match interaction.target, canGrab with
      | some pid, true =>
        let s2 :=
          if !interaction.isPlayZoneGrab then
            setPiece s1 pid fun q => { q with isGrabbed := true }
          else s1
        let tp := getPieceD s2 pid
        setInter s2 side
          { interaction with
              state := IState.GRABBING
              grabOffset := some (tp.screenX - midX, tp.screenY - midY)
              grabAngle := some (calculateWristAngle rm hand)
              grabX := midX
              lastMoveTime := input.time }
      | _, _ => setInter s1 side interaction
    else if interaction.state = IState.GRABBING ∨ interaction.state = IState.DRAGGING then
      if shouldRelease then
        let s1 := setInter s side interaction
        let s2 :=
          match interaction.target with
          | some pid =>
            if !interaction.isPlayZoneGrab then
              handleDrop input.perfNow
                (setPiece s1 pid fun q => { q with isGrabbed := false }) pid midX midY
            else if s1.currentPiece == some pid then hardDrop s1
            else s1
          | none => s1
        setInter s2 side
          { (getInter s2 side) with
              state := IState.IDLE
              target := none
              grabOffset := none
              grabAngle := none
              isPlayZoneGrab := false
              currentRotation := none }
      else
        let interaction := { interaction with state := IState.DRAGGING }
        let s1 := setInter s side interaction
        match interaction.target with
        | some pid =>
          if interaction.isPlayZoneGrab && (s1.currentPiece == some pid) then
            playZoneControl rm input side s1 pid midX midY
          else
            let s2 := { s1 with isDraggingPiece := true, draggedPiece := interaction.target }
            match interaction.grabOffset with
            | some off =>
              setPiece s2 pid fun q =>
                let tX := midX + off.1
                let tY := midY + off.2
                { q with targetScreenX := tX, targetScreenY := tY,
                         screenX := q.screenX + (tX - q.screenX) * (3/5),
                         screenY := q.screenY + (tY - q.screenY) * (3/5) }
            | none => s2
        | none =>
          if interaction.isPlayZoneGrab && (s1.currentPiece == none) then s1
          else { s1 with isDraggingPiece := true, draggedPiece := none }
    else s

/-- The smooth-animation pass at the end of `handleHandInteraction`: every
grabbed piece (current piece and hold pieces) eases toward its target screen
position with a distance-dependent factor. -/
def animatePieces (rm : RMath) (s : GameState) : GameState :=
  let ids :=
    (match s.currentPiece with
     | some c => [c]
     | none => []) ++ s.holds.flatMap (·.pieces)
  ids.foldl
    (fun st pid =>
      setPiece st pid fun q =>
        if q.isGrabbed then
          let dx := q.targetScreenX - q.screenX
          let dy := q.targetScreenY - q.screenY
          let d := rm.sqrt (dx * dx + dy * dy)
          let lerpFactor := 2/5 + min (d / 50) (2/5 : ℚ)
          { q with screenX := q.screenX + dx * lerpFactor, screenY := q.screenY + dy * lerpFactor }
        else q)
    s

/-- The hold-targeting feedback pass at the end of `handleHandInteraction`:
while a piece is being dragged, each hold's `isTargeted` flag is recomputed
from the dragging hand's position and the slot's capacity/type check. -/
def holdTargetingStep (s : GameState) : GameState :=
  if s.isDraggingPiece then
    match s.draggedPiece with
    | some dpid =>
      match getHandPosition s with
      | some hp =>
        let dragged := getPieceD s dpid
        { s with holds := s.holds.map fun hold =>
            { hold with isTargeted := holdContains hold hp.1 hp.2 && canAddHold hold dragged.type } }
      | none => s
    | none => s
  else s

/-- `handleHandInteraction(hands, pinchDistances, w, h, currentTime)`: reset
the drag flags, process the left then the right hand, run the grabbed-piece
animation, then the hold-targeting feedback. -/
def handleHandInteraction (rm : RMath) (input : Input) (s : GameState) : GameState :=
  let s0 := { s with isDraggingPiece := false, draggedPiece := none }
  let s1 := handleHandSide rm input Side.left s0
  let s2 := handleHandSide rm input Side.right s1
  holdTargetingStep (animatePieces rm s2)

/-- The layout recomputation at the top of `update`: board origin, spawn-zone
band, hold-slot positions (left bank slots 0-2, right bank slots 3-5), and
the per-frame reset of each hold's `isTargeted` flag. -/
def layoutStage (input : Input) (s : GameState) : GameState :=
  let offsetX := (input.w - boardWidth) / 2
  let offsetY := input.h - boardHeight - 60
  let holdGap : ℚ := 20
  let holdMargin : ℚ := 40
  let holdTopY : ℚ := 60
  let holdLeftX := holdMargin
  let holdRightX := input.w - HOLD_SLOT_WIDTH - holdMargin
  { s with
      layout :=
        { offsetX := offsetX
          offsetY := offsetY
          spawnZoneTop := offsetY - SPAWN_ZONE_HEIGHT
          spawnZoneBottom := offsetY
          holdLeftX := holdLeftX
          holdRightX := holdRightX }
      holds := s.holds.mapIdx fun i hold =>
        if i < 3 then
          { hold with x := holdLeftX, y := holdTopY + (i : ℚ) * (HOLD_SLOT_HEIGHT + holdGap),
                      isTargeted := false }
        else
          { hold with x := holdRightX, y := holdTopY + ((i : ℚ) - 3) * (HOLD_SLOT_HEIGHT + holdGap),
                      isTargeted := false } }

/-- The play-zone entry check in `update`: an unguarded, ungrabbed current
piece that has reached `y ≥ 0` is marked as being in the play zone. -/
def zoneEntryStage (s : GameState) : GameState :=
  match s.currentPiece with
  | some cid =>
    match lookupPiece s cid with
    | some p =>
      if !p.inPlayZone && !p.isGrabbed && decide (p.y ≥ 0) then
        setPiece s cid fun q => { q with inPlayZone := true }
      else s
    | none => s
  | none => s

/-- The deferred-spawn check in `update`: while a hold drop is pending and no
current piece exists, spawn once the hold-spawn delay has elapsed. -/
def pendingSpawnStage (t : ℚ) (s : GameState) : GameState :=
  if s.pendingSpawn && s.currentPiece == none then
    if t - s.lastHoldTime ≥ HOLD_SPAWN_DELAY then
      { (spawnPiece s) with pendingSpawn := false }
    else s
  else s

/-- The auto-drop (gravity) check in `update`: only when the current piece
exists and is not grabbed, and the gravity interval has elapsed. -/
def autoDropStage (t : ℚ) (s : GameState) : GameState :=
  match s.currentPiece with
  | some cid =>
    if !(getPieceD s cid).isGrabbed then
      if t - s.lastDropTime > dropInterval then dropPiece { s with lastDropTime := t }
      else s
    else s
  | none => s

/-- The inner loop of `updatePiecePositions()`: restack one hold's ungrabbed
pieces at their slot positions. -/
def updateHoldPiecePositions (st : GameState) (hold : Hold) : GameState :=
  (List.range hold.pieces.length).foldl
    (fun st2 (pieceIdx : Nat) =>
      setPiece st2 (hold.pieces.getD pieceIdx 0) fun q =>
        if q.isGrabbed then q
        else
          let centerX := hold.x + HOLD_SLOT_WIDTH / 2 + (pieceIdx : ℚ) * 18 -
            (((hold.pieces.length : ℚ) - 1) * 9)
          let centerY := hold.y + HOLD_SLOT_HEIGHT / 2 + 5
          { q with screenX := centerX, screenY := centerY,
                   targetScreenX := centerX, targetScreenY := centerY })
    st

/-- `updatePiecePositions()`: recompute the screen positions of the ungrabbed
current piece (grid position in the play zone, interpolated spawn-zone
position otherwise) and of every ungrabbed hold piece, via
`updateHoldPiecePositions` on each hold. -/
def updatePiecePositions (s : GameState) : GameState :=
  let s1 :=
    match s.currentPiece with
    | some cid =>
      setPiece s cid fun q =>
        if q.isGrabbed then q
        else
          let c :=
            if q.inPlayZone then
              (s.layout.offsetX + ((q.x : ℚ) + ((q.shape.getD 0 []).length : ℚ) / 2) * CELL_SIZE,
               s.layout.offsetY + ((q.y : ℚ) + (q.shape.length : ℚ) / 2) * CELL_SIZE)
            else
              let totalSpawnTicks : ℚ := (SPAWN_TICKS : ℚ) + (q.shape.length : ℚ)
              let progress := ((q.y : ℚ) + totalSpawnTicks) / totalSpawnTicks
              (s.layout.offsetX + boardWidth / 2,
               s.layout.spawnZoneTop + 30 + progress * (SPAWN_ZONE_HEIGHT - 50))
          { q with screenX := c.1, screenY := c.2, targetScreenX := c.1, targetScreenY := c.2 }
    | none => s
  s.holds.foldl updateHoldPiecePositions s1

/-- `update(currentTime, hands, pinchDistances, canvasWidth, canvasHeight)`:
the per-frame pipeline in source order — layout, play-zone entry check,
deferred spawn, hand interaction (only when a hands container is supplied),
gravity, screen-position update. -/
def update (rm : RMath) (input : Input) (s : GameState) : GameState :=
  let s1 := layoutStage input s
  let s2 := zoneEntryStage s1
  let s3 := pendingSpawnStage input.time s2
  let s4 := if input.handsPresent then handleHandInteraction rm input s3 else s3
  let s5 := autoDropStage input.time s4
  updatePiecePositions s5

/-- The constructor's per-hand interaction record. -/
def initInteraction : Interaction :=
  { state := IState.IDLE, target := none, grabOffset := none, smoothedPos := none,
    grabAngle := none, lastRotateTime := 0, isPlayZoneGrab := false, grabX := 0,
    lastMoveTime := 0, currentRotation := none, circleAngle := 0, circleRadius := 0,
    pieceCenter := none }

/-- One empty hold slot as built by the constructor. -/
def initHold (sd : Side) : Hold :=
  { pieces := [], type := none, x := 0, y := 0, isTargeted := false, side := sd }

/-- The `Tetris` constructor (with the injected random source `bag`): empty
board, six empty holds, idle hands, then `spawnPiece()`. -/
def initState (bag : List Tet) : GameState :=
  spawnPiece
    { board := createEmptyBoard, currentPiece := none, lastDropTime := 0,
      holds := [initHold Side.left, initHold Side.left, initHold Side.left,
                initHold Side.right, initHold Side.right, initHold Side.right],
      lastHoldTime := 0, pendingSpawn := false,
      interLeft := initInteraction, interRight := initInteraction,
      layout := { offsetX := 0, offsetY := 0, spawnZoneTop := 0, spawnZoneBottom := 0,
                  holdLeftX := 0, holdRightX := 0 },
      isDraggingPiece := false, draggedPiece := none, pieces := [], nextId := 0, bag := bag }

/-- States reachable from the constructor by any sequence of `update` calls
with any hand inputs and any values of the transcendental oracle. -/
inductive Reachable : GameState → Prop
  | init (bag : List Tet) : Reachable (initState bag)
  | step (rm : RMath) (input : Input) (s : GameState) :
      Reachable s → Reachable (update rm input s)

/-- The hold-slot invariant: every slot's stack has at most `MAX_PER_HOLD`
pieces, an empty slot's type tag is `null`, and every piece in a slot exists
in the heap and has the slot's tagged type. -/
def HoldInv (s : GameState) : Prop :=
  ∀ h ∈ s.holds,
    h.pieces.length ≤ MAX_PER_HOLD ∧
    (h.pieces = [] → h.type = none) ∧
    ∀ pid ∈ h.pieces, ∃ p, lookupPiece s pid = some p ∧ h.type = some p.type

/-- The discrete content of a hold slot: its stack of piece ids and its type
tag (positions and the targeting flag are per-frame render data). -/
def holdCore (h : Hold) : List Nat × Option Tet := (h.pieces, h.type)

/-- A state transition that keeps every hold's stack and tag, and keeps every
allocated piece's type.  Such transitions preserve `HoldInv`. -/
def TypePres (s s' : GameState) : Prop :=
  s'.holds.map holdCore = s.holds.map holdCore ∧
  ∀ pid p, lookupPiece s pid = some p → ∃ p', lookupPiece s' pid = some p' ∧ p'.type = p.type

/-- Whether an interaction state belongs to the grab-side family
{GRABBING, DRAGGING} (as opposed to {IDLE, TARGETING}). -/
def grabFamily : IState → Bool
  | IState.GRABBING => true
  | IState.DRAGGING => true
  | _ => false

/-- A row with at least one filled cell. -/
def rowHasFilled (r : List Cell) : Bool := r.any (·.isSome)

/-- The largest row index of the board holding a filled cell. -/
def lowestFilledRow (b : Board) : Option Nat :=
  (List.range b.length).reverse.find? fun i => rowHasFilled (b.getD i [])

/-- Total number of filled cells on the board. -/
def countFilled (b : Board) : Nat := (b.map fun r => r.countP (·.isSome)).sum

/-- Number of filled cells of a shape matrix. -/
def onesCount (shape : List (List Bool)) : Nat := (shape.map fun r => r.countP id).sum

/-- Concrete piece for the C1 witness. -/
def c1Piece : Piece :=
  { type := Tet.T, shape := SHAPES Tet.T, x := 3, y := 0, isGrabbed := false,
    inPlayZone := true, screenX := 0, screenY := 0, targetScreenX := 0, targetScreenY := 0 }

/-- Concrete board for the C3 witness: a single full row at index 19. -/
def c3Board : Board := List.replicate 19 emptyRow ++ [List.replicate COLS (some Tet.T)]

/-- Oracle instance for concrete executions (any values work: the theorems
about the oracle-indexed functions quantify over all of them). -/
def rm0 : RMath := { sqrt := fun _ => 0, atan2 := fun _ _ => 0, toDeg := fun _ => 0 }

/-- A frame with one hand present at pinch distance 0.12, inside the
hysteresis band. -/
def c5Input : Input :=
  { time := 0, handsPresent := true,
    left := some { wrist := ⟨0, 0⟩, middleMCP := ⟨0, 0⟩, thumb := ⟨1/2, 1/2⟩,
                   indexTip := ⟨1/2, 1/2⟩, dist := 12/100 },
    right := none, w := 800, h := 600, perfNow := 0 }

/-- Concrete state for the C7 witness: the current piece is marked grabbed. -/
def c7WitState : GameState :=
  setPiece (initState [Tet.O]) 0 fun q => { q with isGrabbed := true }

/-- A hand input whose smoothed midpoint is exactly (400, 400) on an 800×600
canvas. -/
def handAt400 (d : ℚ) : HandInput :=
  { wrist := ⟨0, 0⟩, middleMCP := ⟨0, 0⟩, thumb := ⟨1/2, 2/3⟩, indexTip := ⟨1/2, 2/3⟩,
    dist := d }

/-- Concrete state for the C7 counterexample: the left hand is GRABBING the
play-zone current piece (a play-zone grab leaves `isGrabbed` false). -/
def c7Cex : GameState :=
  let base := initState [Tet.O]
  let base := setPiece base 0 fun q => { q with y := 10, inPlayZone := true }
  setInter base Side.left
    { initInteraction with
        state := IState.GRABBING
        target := some 0
        isPlayZoneGrab := true
        smoothedPos := some (400, 400)
        grabOffset := some (0, 0)
        grabX := 400 }

/-- Frame for the C7 counterexample: pinch inside the band (no release, no
grab transition), gravity interval elapsed. -/
def c7In : Input :=
  { time := 1000, handsPresent := true, left := some (handAt400 (12/100)), right := none,
    w := 800, h := 600, perfNow := 0 }

/-- Concrete state for the C6 counterexample: left hand GRABBING the
play-zone current piece near the bottom, pinch above the release
threshold. -/
def c6Cex : GameState :=
  let base := initState [Tet.O]
  let base := setPiece base 0 fun q => { q with y := 18, inPlayZone := true }
  setInter base Side.left
    { initInteraction with
        state := IState.GRABBING
        target := some 0
        isPlayZoneGrab := true
        smoothedPos := some (400, 400)
        grabOffset := some (0, 0)
        grabX := 400 }

/-- Frame for the C6 counterexample: release (pinch 0.2 > 0.15) with the
drop point (400, 400) outside every hold rectangle and outside the
spawn-zone rectangle. -/
def c6In : Input :=
  { time := 0, handsPresent := true, left := some (handAt400 (2/10)), right := none,
    w := 800, h := 600, perfNow := 0 }

/-- A frame with the hands container present but neither hand detected. -/
def frameNoHands (t : ℚ) : Input :=
  { time := t, handsPresent := true, left := none, right := none, w := 800, h := 600,
    perfNow := 0 }

/-- A plain stored piece of the given type (as it would sit in a hold). -/
def mkPieceOf (t : Tet) : Piece :=
  { type := t, shape := SHAPES t, x := 0, y := 0, isGrabbed := false, inPlayZone := false,
    screenX := 0, screenY := 0, targetScreenX := 0, targetScreenY := 0 }

/-- The constructor state after one empty frame on an 800×600 canvas: the
layout and the hold rectangles are populated (left bank at x = 40,
y = 60/150/240). -/
def c8Base : GameState := update rm0 (frameNoHands 0) (initState [Tet.T])

/-- C8 witness state: hold slot 0 is full (three T pieces); the current piece
(id 0) is also a T. -/
def c8Wit : GameState :=
  { c8Base with
      pieces := c8Base.pieces ++ [(1, mkPieceOf Tet.T), (2, mkPieceOf Tet.T), (3, mkPieceOf Tet.T)],
      nextId := 4,
      holds := modifyIdx c8Base.holds 0 fun h => { h with pieces := [1, 2, 3], type := some Tet.T } }

/-- C8 counterexample state: hold slot 0 is empty, hold slot 1 is full with
three T pieces; the current piece (id 0) is a T. -/
def c8Cex : GameState :=
  { c8Base with
      pieces := c8Base.pieces ++ [(1, mkPieceOf Tet.T), (2, mkPieceOf Tet.T), (3, mkPieceOf Tet.T)],
      nextId := 4,
      holds := modifyIdx c8Base.holds 1 fun h => { h with pieces := [1, 2, 3], type := some Tet.T } }

/-- Base state for the C9 theorems: constructor state after one empty frame
(layout populated, current piece id 0 of type O in the spawn zone). -/
def c9Base : GameState := update rm0 (frameNoHands 0) (initState [Tet.O, Tet.I])

/-- A shape matrix with at least one filled cell (true for every tetromino;
an all-empty shape would make the `hardDrop` while-loop diverge in the
source). -/
def shapeFilled (shape : List (List Bool)) : Bool :=
  shape.any fun row => row.any id

/-- The smoothed hand midpoint computed at the top of the hand-present branch
of `handleHandInteraction` (raw mirrored midpoint, blended with the previous
smoothed position at factor 0.5 while DRAGGING and 0.3 otherwise). -/
def smoothedMid (inter : Interaction) (hand : HandInput) (w h : ℚ) : ℚ × ℚ :=
  let rawMidX := (1 - (hand.thumb.x + hand.indexTip.x) / 2) * w
  let rawMidY := ((hand.thumb.y + hand.indexTip.y) / 2) * h
  let sp := inter.smoothedPos.getD (rawMidX, rawMidY)
  let smoothFactor : ℚ := if inter.state = IState.DRAGGING then 1/2 else 3/10
  (sp.1 + (rawMidX - sp.1) * smoothFactor, sp.2 + (rawMidY - sp.2) * smoothFactor)

/-- Concrete state for the C10 witness: the left hand is GRABBING the current
piece (id 0, an O at y = 5 inside the play zone) through a play-zone grab. -/
def c10State : GameState :=
  let base := initState [Tet.O, Tet.I]
  let base := setPiece base 0 fun q => { q with y := 5, inPlayZone := true }
  setInter base Side.left
    { initInteraction with
        state := IState.GRABBING
        target := some 0
        isPlayZoneGrab := true
        smoothedPos := some (400, 400)
        grabOffset := some (0, 0)
        grabX := 400 }

/-- Frame for the C10 witness: the left pinch distance 0.2 is above the
release threshold 0.15. -/
def c10In : Input :=
  { time := 0, handsPresent := true, left := some (handAt400 (2/10)), right := none,
    w := 800, h := 600, perfNow := 0 }

/-! ## Theorems -/

theorem isFullRow_emptyRow : isFullRow emptyRow = false := by decide

/-- C1: for a non-O piece, `rotatePiece` either installs the
transposed-and-reversed shape at the first of the offsets `0, -1, 1, -2, 2`
(in that order) that `canPlace` accepts — so `canPlace` holds afterwards —
or, when all five fail, leaves the piece exactly as it was (shape and x both
restored); the O piece is never changed. -/
theorem C1_rotate_wallkick (b : Board) (p : Piece) (hcp : canPlacePiece b p = true) :
    (p.type = Tet.O → rotatePieceP b p = p) ∧
    (p.type ≠ Tet.O →
      ((rotatePieceP b p).shape = rotateShape p.shape ∧ (rotatePieceP b p).y = p.y ∧
        (rotatePieceP b p).type = p.type ∧ canPlacePiece b (rotatePieceP b p) = true ∧
        ∃ pre k post, kickOffsets0 = pre ++ k :: post ∧ (rotatePieceP b p).x = p.x + k ∧
          ∀ k' ∈ pre, canPlacePos b (rotateShape p.shape) (p.x + k') p.y = false) ∨
      (rotatePieceP b p = p ∧
        ∀ k ∈ kickOffsets0, canPlacePos b (rotateShape p.shape) (p.x + k) p.y = false)) := by
  constructor
  · intro hO
    simp [rotatePieceP, hO]
  · intro hO
    by_cases h0 : canPlacePos b (rotateShape p.shape) (p.x + 0) p.y
    · rw [add_zero] at h0
      have hr : rotatePieceP b p = { p with shape := rotateShape p.shape } := by
        simp [rotatePieceP, hO, h0]
      left
      refine ⟨by rw [hr], by rw [hr], by rw [hr], ?_, [], 0, [-1, 1, -2, 2], rfl, ?_, ?_⟩
      · rw [hr]; simpa [canPlacePiece] using h0
      · rw [hr]; simp
      · intro k' hk'; simp at hk'
    · rw [add_zero, Bool.not_eq_true] at h0
      by_cases h1 : canPlacePos b (rotateShape p.shape) (p.x + -1) p.y
      · have hr : rotatePieceP b p = { p with shape := rotateShape p.shape, x := p.x + -1 } := by
          simp [rotatePieceP, hO, h0, h1]
        left
        refine ⟨by rw [hr], by rw [hr], by rw [hr], ?_, [0], -1, [1, -2, 2], rfl, by rw [hr], ?_⟩
        · rw [hr]; simpa [canPlacePiece] using h1
        · intro k' hk'; simp at hk'; subst hk'; rw [add_zero]; exact h0
      · rw [Bool.not_eq_true] at h1
        by_cases h2 : canPlacePos b (rotateShape p.shape) (p.x + 1) p.y
        · have hr : rotatePieceP b p = { p with shape := rotateShape p.shape, x := p.x + 1 } := by
            simp [rotatePieceP, hO, h0, h1, h2]
          left
          refine ⟨by rw [hr], by rw [hr], by rw [hr], ?_, [0, -1], 1, [-2, 2], rfl, by rw [hr], ?_⟩
          · rw [hr]; simpa [canPlacePiece] using h2
          · intro k' hk'; simp at hk'
            rcases hk' with hk' | hk' <;> subst hk'
            · rw [add_zero]; exact h0
            · exact h1
        · rw [Bool.not_eq_true] at h2
          by_cases h3 : canPlacePos b (rotateShape p.shape) (p.x + -2) p.y
          · have hr : rotatePieceP b p = { p with shape := rotateShape p.shape, x := p.x + -2 } := by
              simp [rotatePieceP, hO, h0, h1, h2, h3]
            left
            refine ⟨by rw [hr], by rw [hr], by rw [hr], ?_, [0, -1, 1], -2, [2], rfl, by rw [hr], ?_⟩
            · rw [hr]; simpa [canPlacePiece] using h3
            · intro k' hk'; simp at hk'
              rcases hk' with hk' | hk' | hk' <;> subst hk'
              · rw [add_zero]; exact h0
              · exact h1
              · exact h2
          · rw [Bool.not_eq_true] at h3
            by_cases h4 : canPlacePos b (rotateShape p.shape) (p.x + 2) p.y
            · have hr : rotatePieceP b p =
                  { p with shape := rotateShape p.shape, x := p.x + 2 } := by
                simp [rotatePieceP, hO, h0, h1, h2, h3, h4]
              left
              refine ⟨by rw [hr], by rw [hr], by rw [hr], ?_, [0, -1, 1, -2], 2, [], rfl,
                by rw [hr], ?_⟩
              · rw [hr]; simpa [canPlacePiece] using h4
              · intro k' hk'; simp at hk'
                rcases hk' with hk' | hk' | hk' | hk' <;> subst hk'
                · rw [add_zero]; exact h0
                · exact h1
                · exact h2
                · exact h3
            · rw [Bool.not_eq_true] at h4
              right
              constructor
              · simp [rotatePieceP, hO, h0, h1, h2, h3, h4]
              · intro k hk; simp [kickOffsets0] at hk
                rcases hk with hk | hk | hk | hk | hk <;> subst hk
                · rw [add_zero]; exact h0
                · exact h1
                · exact h2
                · exact h3
                · exact h4

theorem C1_rotate_wallkick_witness :
    canPlacePiece createEmptyBoard c1Piece = true ∧
    (c1Piece.type = Tet.O → rotatePieceP createEmptyBoard c1Piece = c1Piece) :=
  ⟨by decide, (C1_rotate_wallkick createEmptyBoard c1Piece (by decide)).1⟩

theorem clearLinesAux_succ (fuel : Nat) (b : Board) (i : Nat) :
    clearLinesAux (fuel + 1) b i =
      if fullAt b i then clearLinesAux fuel (emptyRow :: b.eraseIdx i) i
      else if i = 0 then b else clearLinesAux fuel b (i - 1) := rfl

theorem clearLinesAux_eq (fuel : Nat) :
    ∀ (b : Board) (i : Nat), i < b.length →
      (∀ r ∈ b.drop (i + 1), isFullRow r = false) →
      i + 1 + (b.take (i + 1)).countP isFullRow ≤ fuel →
      clearLinesAux fuel b i =
        List.replicate ((b.take (i + 1)).countP isFullRow) emptyRow ++
          ((b.take (i + 1)).filter fun r => !isFullRow r) ++ b.drop (i + 1) := by
  induction fuel with
  | zero => intro b i hi _ hfuel; omega
  | succ fuel ih =>
    intro b i hi hdrop hfuel
    have hbi : b[i]? = some b[i] := List.getElem?_eq_getElem hi
    have htake : b.take (i + 1) = b.take i ++ [b[i]] := by
      rw [List.take_succ, hbi]; rfl
    have hlt : (b.take i).length = i := by
      rw [List.length_take]; omega
    by_cases hfull : fullAt b i = true
    · have hfr : isFullRow b[i] = true := by
        unfold fullAt at hfull; rw [hbi] at hfull; exact hfull
      have hstep : clearLinesAux (fuel + 1) b i = clearLinesAux fuel (emptyRow :: b.eraseIdx i) i := by
        rw [clearLinesAux_succ, if_pos hfull]
      have herase : b.eraseIdx i = b.take i ++ b.drop (i + 1) :=
        List.eraseIdx_eq_take_drop_succ b i
      set b' : Board := emptyRow :: b.eraseIdx i with hb'
      have hlen' : b'.length = b.length := by
        rw [hb', List.length_cons, List.length_eraseIdx]; simp [hi]; omega
      have htake' : b'.take (i + 1) = emptyRow :: b.take i := by
        rw [hb', List.take_succ_cons, herase, List.take_left' hlt]
      have hdrop' : b'.drop (i + 1) = b.drop (i + 1) := by
        rw [hb', List.drop_succ_cons, herase, List.drop_left' hlt]
      have hcount : (b.take (i + 1)).countP isFullRow = (b.take i).countP isFullRow + 1 := by
        rw [htake, List.countP_append]; simp [hfr]
      have hcount' : (b'.take (i + 1)).countP isFullRow = (b.take i).countP isFullRow := by
        rw [htake', List.countP_cons_of_neg]; simp [isFullRow_emptyRow]
      have hfilter : ((b.take (i + 1)).filter fun r => !isFullRow r) =
          (b.take i).filter fun r => !isFullRow r := by
        rw [htake, List.filter_append]; simp [hfr]
      have hfilter' : ((b'.take (i + 1)).filter fun r => !isFullRow r) =
          emptyRow :: ((b.take i).filter fun r => !isFullRow r) := by
        rw [htake', List.filter_cons_of_pos]; simp [isFullRow_emptyRow]
      rw [hstep, ih b' i (by omega) (by rw [hdrop']; exact hdrop) (by rw [hcount']; omega)]
      rw [hcount', hdrop', hfilter', hcount, hfilter]
      rw [List.replicate_succ']
      simp [List.append_assoc]
    · have hfr : isFullRow b[i] = false := by
        unfold fullAt at hfull; rw [hbi] at hfull; simpa using hfull
      have hcount : (b.take (i + 1)).countP isFullRow = (b.take i).countP isFullRow := by
        rw [htake, List.countP_append]; simp [hfr]
      have hfilter : ((b.take (i + 1)).filter fun r => !isFullRow r) =
          ((b.take i).filter fun r => !isFullRow r) ++ [b[i]] := by
        rw [htake, List.filter_append]; simp [hfr]
      have hdropi : b.drop i = b[i] :: b.drop (i + 1) := List.drop_eq_getElem_cons hi
      match i with
      | 0 =>
        have hres : clearLinesAux (fuel + 1) b 0 = b := by
          rw [clearLinesAux_succ, if_neg (by simp [hfull]), if_pos rfl]
        rw [hres]
        rw [hcount, hfilter]
        simp only [List.take_zero, List.countP_nil, List.replicate_zero, List.filter_nil,
          List.nil_append]
        conv_lhs => rw [← List.drop_zero b, hdropi]
        simp
      | j + 1 =>
        have hstep : clearLinesAux (fuel + 1) b (j + 1) = clearLinesAux fuel b j := by
          rw [clearLinesAux_succ, if_neg (by simp [hfull]), if_neg (by omega)]
          simp
        have hdropj : ∀ r ∈ b.drop (j + 1), isFullRow r = false := by
          intro r hr
          rw [hdropi] at hr
          rcases List.mem_cons.mp hr with hr | hr
          · rw [hr]; exact hfr
          · exact hdrop r hr
        rw [hstep, ih b j (by omega) hdropj (by omega)]
        rw [hcount, hfilter, hdropi]
        simp [List.append_assoc]

/-- C3: `clearLines` removes exactly the full rows (rows with no empty cell)
and unshifts one empty row at index 0 per removed row, preserving the
relative order of the remaining rows; the bottom-to-top scan with index
re-examination handles adjacent and gapped multi-line clears in one call. -/
theorem C3_clearLines (b : Board) (hlen : b.length = ROWS) :
    clearLines b =
      List.replicate (b.countP isFullRow) emptyRow ++ (b.filter fun r => !isFullRow r) := by
  unfold clearLines
  have h1 : ROWS - 1 < b.length := by rw [hlen]; decide
  have h2 : ROWS - 1 + 1 = ROWS := by decide
  have htake : b.take (ROWS - 1 + 1) = b := by
    rw [h2]; exact List.take_of_length_le (by omega)
  have hdrop : b.drop (ROWS - 1 + 1) = [] := by
    rw [h2, ← hlen]; exact List.drop_length b
  rw [clearLinesAux_eq (2 * ROWS) b (ROWS - 1) h1 (by rw [hdrop]; intro r hr; simp at hr)
    (by rw [htake]; have := List.countP_le_length (l := b) (p := isFullRow); omega)]
  rw [htake, hdrop, List.append_nil]

theorem C3_clearLines_witness :
    c3Board.length = ROWS ∧
    clearLines c3Board =
      List.replicate (c3Board.countP isFullRow) emptyRow ++
        (c3Board.filter fun r => !isFullRow r) :=
  ⟨by decide, C3_clearLines c3Board (by decide)⟩

/-- C4 counterexample: spawning an O piece at its canonical start position
(`y = -SPAWN_TICKS - 2`) and applying only `ROWS` gravity ticks on an empty
board leaves the very same piece unlocked and in flight (the board is still
empty and no new piece has been spawned), because the piece must first cross
the `SPAWN_TICKS`-deep spawn zone. -/
theorem C4_counterexample :
    ((dropPiece^[ROWS]) (initState [Tet.O])).currentPiece = some 0 ∧
    countFilled ((dropPiece^[ROWS]) (initState [Tet.O])).board = 0 ∧
    (lookupPiece ((dropPiece^[ROWS]) (initState [Tet.O])) 0).map Piece.y = some 12 := by
  decide

/-- C4 amended: for every piece type, after `spawnPiece` creates the piece at
its canonical start position, applying `ROWS + SPAWN_TICKS + 1` consecutive
gravity ticks (`dropPiece` calls) on an empty board with no intervening grabs
locks the piece with its lowest filled row at the bottom board row and spawns
a new piece. -/
theorem C4_gravity_to_bottom (t : Tet) :
    ((dropPiece^[ROWS + SPAWN_TICKS.toNat + 1]) (initState [t])).currentPiece = some 1 ∧
    lowestFilledRow ((dropPiece^[ROWS + SPAWN_TICKS.toNat + 1]) (initState [t])).board =
      some (ROWS - 1) ∧
    countFilled ((dropPiece^[ROWS + SPAWN_TICKS.toNat + 1]) (initState [t])).board =
      onesCount (SHAPES t) := by
  cases t <;> decide

@[simp]
theorem getInter_setInter (s : GameState) (sd side : Side) (it : Interaction) :
    getInter (setInter s sd it) side = if sd = side then it else getInter s side := by
  cases sd <;> cases side <;> simp [getInter, setInter]

@[simp]
theorem getInter_setPiece (s : GameState) (pid : Nat) (f : Piece → Piece) (side : Side) :
    getInter (setPiece s pid f) side = getInter s side := by
  cases side <;> rfl

@[simp]
theorem getInter_spawnPiece (s : GameState) (side : Side) :
    getInter (spawnPiece s) side = getInter s side := by
  cases side <;> rfl

@[simp]
theorem getInter_clearLinesS (s : GameState) (side : Side) :
    getInter (clearLinesS s) side = getInter s side := by
  cases side <;> rfl

@[simp]
theorem getInter_lockPieceS (s : GameState) (side : Side) :
    getInter (lockPieceS s) side = getInter s side := by
  unfold lockPieceS
  split
  · rfl
  · split <;> (cases side <;> rfl)

@[simp]
theorem getInter_rotateCurrent (s : GameState) (side : Side) :
    getInter (rotateCurrent s) side = getInter s side := by
  unfold rotateCurrent
  split
  · rfl
  · simp

@[simp]
theorem getInter_dropPiece (s : GameState) (side : Side) :
    getInter (dropPiece s) side = getInter s side := by
  unfold dropPiece
  split
  · rfl
  · split
    · rfl
    · split
      · rfl
      · split
        · split <;> simp
        · split
          · simp
          · simp

@[simp]
theorem getInter_hardDrop (s : GameState) (side : Side) :
    getInter (hardDrop s) side = getInter s side := by
  unfold hardDrop
  split
  · rfl
  · split
    · rfl
    · simp

@[simp]
theorem getInter_removeFromHolds (s : GameState) (pid : Nat) (side : Side) :
    getInter (removeFromHolds s pid) side = getInter s side := by
  unfold removeFromHolds
  split
  · rfl
  · cases side <;> rfl

@[simp]
theorem getInter_handleDrop (now : ℚ) (s : GameState) (pid : Nat) (x y : ℚ) (side : Side) :
    getInter (handleDrop now s pid x y) side = getInter s side := by
  simp only [handleDrop]
  repeat' split
  all_goals cases side <;>
    first
      | rfl
      | exact getInter_removeFromHolds _ _ Side.left
      | exact getInter_removeFromHolds _ _ Side.right

theorem getInter_foldl {α : Type} (side : Side) (g : GameState → α → GameState)
    (hg : ∀ st a, getInter (g st a) side = getInter st side) :
    ∀ (l : List α) (s : GameState), getInter (l.foldl g s) side = getInter s side := by
  intro l
  induction l with
  | nil => intro s; rfl
  | cons a l ih => intro s; rw [List.foldl_cons, ih, hg]

@[simp]
theorem getInter_updateHoldPiecePositions (st : GameState) (hold : Hold) (side : Side) :
    getInter (updateHoldPiecePositions st hold) side = getInter st side := by
  unfold updateHoldPiecePositions
  apply getInter_foldl
  intro st2 i
  simp

@[simp]
theorem getInter_updatePiecePositions (s : GameState) (side : Side) :
    getInter (updatePiecePositions s) side = getInter s side := by
  simp only [updatePiecePositions]
  rw [getInter_foldl side updateHoldPiecePositions
    (fun st a => getInter_updateHoldPiecePositions st a side)]
  split
  · simp
  · rfl

@[simp]
theorem getInter_animatePieces (rm : RMath) (s : GameState) (side : Side) :
    getInter (animatePieces rm s) side = getInter s side := by
  simp only [animatePieces]
  rw [getInter_foldl side _ (by intro st a; simp)]

@[simp]
theorem getInter_holdTargetingStep (s : GameState) (side : Side) :
    getInter (holdTargetingStep s) side = getInter s side := by
  simp only [holdTargetingStep]
  repeat' split
  all_goals cases side <;> rfl

@[simp]
theorem getInter_layoutStage (input : Input) (s : GameState) (side : Side) :
    getInter (layoutStage input s) side = getInter s side := by
  cases side <;> rfl

@[simp]
theorem getInter_zoneEntryStage (s : GameState) (side : Side) :
    getInter (zoneEntryStage s) side = getInter s side := by
  simp only [zoneEntryStage]
  repeat' split
  all_goals simp

@[simp]
theorem getInter_pendingSpawnStage (t : ℚ) (s : GameState) (side : Side) :
    getInter (pendingSpawnStage t s) side = getInter s side := by
  simp only [pendingSpawnStage]
  repeat' split
  all_goals cases side <;> rfl

@[simp]
theorem getInter_autoDropStage (t : ℚ) (s : GameState) (side : Side) :
    getInter (autoDropStage t s) side = getInter s side := by
  simp only [autoDropStage]
  repeat' split
  all_goals simp
  all_goals cases side <;> rfl

@[simp]
theorem state_rotationGesture (rm : RMath) (input : Input) (side : Side) (s : GameState)
    (cd ca : ℚ) :
    (getInter (rotationGesture rm input side s cd ca) side).state = (getInter s side).state := by
  simp only [rotationGesture]
  repeat' split
  all_goals simp

@[simp]
theorem state_playZoneControl (rm : RMath) (input : Input) (side : Side) (s : GameState)
    (cid : Nat) (mx my : ℚ) :
    (getInter (playZoneControl rm input side s cid mx my) side).state =
      (getInter s side).state := by
  simp only [playZoneControl]
  repeat' split
  all_goals simp

theorem getInter_rotationGesture_other (rm : RMath) (input : Input) (side' side : Side)
    (s : GameState) (cd ca : ℚ) (h : side' ≠ side) :
    getInter (rotationGesture rm input side' s cd ca) side = getInter s side := by
  simp only [rotationGesture]
  repeat' split
  all_goals simp [h]

theorem getInter_playZoneControl_other (rm : RMath) (input : Input) (side' side : Side)
    (s : GameState) (cid : Nat) (mx my : ℚ) (h : side' ≠ side) :
    getInter (playZoneControl rm input side' s cid mx my) side = getInter s side := by
  simp only [playZoneControl]
  repeat' split
  all_goals simp [h, getInter_rotationGesture_other _ _ _ _ _ _ _ h]

theorem getInter_handleHandSide_other (rm : RMath) (input : Input) (side' side : Side)
    (s : GameState) (h : side' ≠ side) :
    getInter (handleHandSide rm input side' s) side = getInter s side := by
  simp only [handleHandSide]
  repeat' split
  all_goals
    first
      | (simp [h, getInter_playZoneControl_other _ _ _ _ _ _ _ _ h]; done)
      | (cases side' <;> cases side <;> simp_all [getInter, setInter, setPiece])

theorem grabFamily_eq_false {st : IState}
    (h : st = IState.IDLE ∨ st = IState.TARGETING) : grabFamily st = false := by
  rcases h with h | h <;> simp [h, grabFamily]

theorem grabFamily_eq_true {st : IState}
    (h : st = IState.GRABBING ∨ st = IState.DRAGGING) : grabFamily st = true := by
  rcases h with h | h <;> simp [h, grabFamily]

set_option maxHeartbeats 2000000 in
theorem grabFamily_handleHandSide_self (rm : RMath) (input : Input) (side : Side)
    (s : GameState) (hand : HandInput) (hh : input.hand side = some hand)
    (h1 : 9/100 < hand.dist) (h2 : hand.dist < 15/100) :
    grabFamily (getInter (handleHandSide rm input side s) side).state =
      grabFamily (getInter s side).state := by
  have hcg : (decide (hand.dist < 9/100)) = false := by
    rw [decide_eq_false_iff_not]; intro hlt; linarith
  have hsr : (decide (hand.dist > 15/100)) = false := by
    rw [decide_eq_false_iff_not]; intro hlt; linarith
  simp only [handleHandSide, hh, hcg, hsr]
  cases hst : (getInter s side).state
  all_goals repeat' split
  all_goals try simp_all [grabFamily]
  all_goals cases side <;> simp_all [grabFamily, getInter, setInter, setPiece]

theorem grabFamily_update (rm : RMath) (input : Input) (s : GameState) (side : Side)
    (hand : HandInput) (hh : input.hand side = some hand)
    (h1 : 9/100 < hand.dist) (h2 : hand.dist < 15/100) :
    grabFamily (getInter (update rm input s) side).state =
      grabFamily (getInter s side).state := by
  unfold update
  rw [getInter_updatePiecePositions, getInter_autoDropStage]
  have hrest :
      ∀ s' : GameState,
        grabFamily (getInter (handleHandInteraction rm input s') side).state =
          grabFamily (getInter s' side).state := by
    intro s'
    unfold handleHandInteraction
    rw [getInter_holdTargetingStep, getInter_animatePieces]
    cases side
    · rw [getInter_handleHandSide_other rm input Side.right Side.left _ (by simp)]
      rw [grabFamily_handleHandSide_self rm input Side.left _ hand hh h1 h2]
      rfl
    · rw [grabFamily_handleHandSide_self rm input Side.right _ hand hh h1 h2]
      rw [getInter_handleHandSide_other rm input Side.left Side.right _ (by simp)]
      rfl
  split
  · rw [hrest]
    rw [getInter_pendingSpawnStage, getInter_zoneEntryStage, getInter_layoutStage]
  · rw [getInter_pendingSpawnStage, getInter_zoneEntryStage, getInter_layoutStage]

/-- C5: over any sequence of update frames in which the hand is present and
its pinch distance stays strictly between the grab threshold (0.09) and the
release threshold (0.15), that hand's interaction state never crosses between
the {IDLE, TARGETING} family and the {GRABBING, DRAGGING} family, however the
distance oscillates inside the band. -/
theorem C5_hysteresis_band (s : GameState) (side : Side) (frames : List (RMath × Input))
    (hband : ∀ f ∈ frames, ∃ hand, f.2.hand side = some hand ∧
      9/100 < hand.dist ∧ hand.dist < 15/100) :
    grabFamily (getInter (frames.foldl (fun st f => update f.1 f.2 st) s) side).state =
      grabFamily (getInter s side).state := by
  induction frames generalizing s with
  | nil => rfl
  | cons f fs ih =>
    rw [List.foldl_cons]
    obtain ⟨hand, hh, h1, h2⟩ := hband f (List.mem_cons_self f fs)
    rw [ih (update f.1 f.2 s) fun g hg => hband g (List.mem_cons_of_mem f hg)]
    exact grabFamily_update f.1 f.2 s side hand hh h1 h2

theorem C5_hysteresis_band_witness :
    grabFamily
      (getInter (([(rm0, c5Input)].foldl (fun st f => update f.1 f.2 st)) (initState [Tet.O]))
        Side.left).state =
      grabFamily (getInter (initState [Tet.O]) Side.left).state := by
  apply C5_hysteresis_band
  intro f hf
  simp only [List.mem_singleton] at hf
  subst hf
  exact ⟨_, rfl, by norm_num, by norm_num⟩

/-- C7 amended: the gravity exemption is keyed on the piece's `isGrabbed`
flag: when the current piece is marked grabbed (spawn-zone/hold grabs set
this flag), the auto-drop stage does nothing at all — the piece's `y` is not
advanced and it is not locked.  (Play-zone grabs deliberately do not set the
flag, so they do not exempt the piece; see the counterexample.) -/
theorem C7_grabbed_exempt_from_gravity (t : ℚ) (s : GameState) (cid : Nat) (pd : Piece)
    (hc : s.currentPiece = some cid) (hl : lookupPiece s cid = some pd)
    (hg : pd.isGrabbed = true) :
    autoDropStage t s = s := by
  unfold autoDropStage
  rw [hc]
  simp [getPieceD, hl, hg]

theorem C7_grabbed_exempt_witness : autoDropStage 5000 c7WitState = c7WitState :=
  C7_grabbed_exempt_from_gravity 5000 c7WitState 0 (getPieceD c7WitState 0)
    (by decide) (by decide) (by decide)

/-- C7 counterexample: while the left hand is GRABBING the play-zone current
piece, the gravity tick in the same `update` still advances the piece from
`y = 10` to `y = 11` — play-zone grabs do not exempt the piece from
gravity. -/
theorem C7_counterexample :
    c7Cex.interLeft.state = IState.GRABBING ∧
    c7Cex.interLeft.target = c7Cex.currentPiece ∧
    c7Cex.interLeft.isPlayZoneGrab = true ∧
    (lookupPiece c7Cex 0).map Piece.y = some 10 ∧
    (lookupPiece (update rm0 c7In c7Cex) 0).map Piece.y = some 11 := by
  decide

/-- C6 amended: for a release handled by `handleDrop` (a non-play-zone grab),
a drop point outside every hold slot's rectangle (tolerance margin included)
and outside the spawn-zone rectangle leaves the game state completely
unchanged.  (A play-zone-grab release never reaches `handleDrop`: it
hard-drops regardless of the drop point — see the counterexample.) -/
theorem C6_outside_drop_noop (now : ℚ) (s : GameState) (pid : Nat) (x y : ℚ)
    (hh : (s.holds.all fun h => !(holdContains h x y)) = true)
    (hs : ¬(x ≥ s.layout.offsetX ∧ x ≤ s.layout.offsetX + boardWidth ∧
        y ≥ s.layout.spawnZoneTop ∧ y ≤ s.layout.spawnZoneBottom)) :
    handleDrop now s pid x y = s := by
  unfold handleDrop
  split
  · rfl
  · have hfind : s.holds.findIdx? (fun h => holdContains h x y) = none := by
      rw [List.findIdx?_eq_none_iff]
      intro h hmem
      have := List.all_eq_true.mp hh h hmem
      simpa using this
    simp only [hfind]
    rw [if_neg]
    intro hcond
    apply hs
    simp only [Bool.and_eq_true, decide_eq_true_eq] at hcond
    exact ⟨hcond.1.1.1, hcond.1.1.2, hcond.1.2, hcond.2⟩

theorem C6_outside_drop_noop_witness :
    handleDrop 0 (initState [Tet.O]) 0 400 400 = initState [Tet.O] :=
  C6_outside_drop_noop 0 (initState [Tet.O]) 0 400 400 (by decide) (by decide)

/-- C6 counterexample: a release whose grab is a play-zone grab changes the
game state even though its drop point lies outside every hold slot rectangle
and outside the spawn zone — the piece is hard-dropped and locked into the
board, and a new piece is spawned. -/
theorem C6_counterexample :
    c6Cex.interLeft.state = IState.GRABBING ∧
    c6Cex.interLeft.target = c6Cex.currentPiece ∧
    ((layoutStage c6In c6Cex).holds.all fun h => !(holdContains h 400 400)) = true ∧
    ¬((400 : ℚ) ≤ (layoutStage c6In c6Cex).layout.spawnZoneBottom) ∧
    (update rm0 c6In c6Cex).board ≠ c6Cex.board ∧
    (update rm0 c6In c6Cex).currentPiece ≠ c6Cex.currentPiece := by
  decide

/-- C8 amended: when the first hold slot (in slot order) whose rectangle
contains the drop point is full or type-mismatched, `handleDrop` changes
nothing at all: every slot's stack and tag, the board and the piece are
untouched.  (Slot rectangles can overlap on their tolerance boundaries; only
the first containing slot is ever tested — see the counterexample.) -/
theorem C8_full_or_mismatch_drop_rejected (now : ℚ) (s : GameState) (pid : Nat) (x y : ℚ)
    (piece : Piece) (i : Nat)
    (hl : lookupPiece s pid = some piece)
    (hf : s.holds.findIdx? (fun h => holdContains h x y) = some i)
    (hcan : canAddHold (s.holds.getD i defaultHold) piece.type = false) :
    handleDrop now s pid x y = s := by
  unfold handleDrop
  simp only [hl, hf]
  rw [if_neg]
  rw [List.getD, List.get?_eq_getElem?] at hcan
  simp [hcan]

theorem C8_rejected_witness : handleDrop 0 c8Wit 0 85 95 = c8Wit :=
  C8_full_or_mismatch_drop_rejected 0 c8Wit 0 85 95 (getPieceD c8Wit 0) 0
    (by decide) (by decide) (by decide)

/-- C8 counterexample: the drop point (40, 140) lies on the shared tolerance
boundary of hold slots 0 and 1; slot 1 is full, yet the drop is not rejected:
slot 0 (earlier in slot order, empty) accepts the piece and the state
changes.  The claim's premise (point within a full slot's rectangle) holds
while its conclusion (nothing changes) fails. -/
theorem C8_counterexample :
    holdContains (c8Cex.holds.getD 1 defaultHold) 40 140 = true ∧
    (c8Cex.holds.getD 1 defaultHold).pieces.length = MAX_PER_HOLD ∧
    ((handleDrop 0 c8Cex 0 40 140).holds.getD 0 defaultHold).pieces = [0] ∧
    (handleDrop 0 c8Cex 0 40 140).currentPiece = none := by
  decide

/-- C9 counterexample: `handleDrop` reads the ambient clock
(`performance.now()`) to record `lastHoldTime`, so the state after an
identical drop differs when only the ambient clock differs — the hold-spawn
timing is not computed solely from the timestamps supplied to `update`. -/
theorem C9_counterexample :
    handleDrop 0 c9Base 0 45 65 ≠ handleDrop 1 c9Base 0 45 65 := by
  decide

theorem foldl_pres {α β : Type} (P : GameState → β) (g : GameState → α → GameState)
    (hg : ∀ st a, P (g st a) = P st) :
    ∀ (l : List α) (s : GameState), P (l.foldl g s) = P s := by
  intro l
  induction l with
  | nil => intro s; rfl
  | cons a l ih => intro s; rw [List.foldl_cons, ih, hg]

@[simp]
theorem currentPiece_setInter (s : GameState) (sd : Side) (it : Interaction) :
    (setInter s sd it).currentPiece = s.currentPiece := by cases sd <;> rfl

@[simp]
theorem pendingSpawn_setInter (s : GameState) (sd : Side) (it : Interaction) :
    (setInter s sd it).pendingSpawn = s.pendingSpawn := by cases sd <;> rfl

@[simp]
theorem nextId_setInter (s : GameState) (sd : Side) (it : Interaction) :
    (setInter s sd it).nextId = s.nextId := by cases sd <;> rfl

@[simp]
theorem pieces_setInter (s : GameState) (sd : Side) (it : Interaction) :
    (setInter s sd it).pieces = s.pieces := by cases sd <;> rfl

@[simp]
theorem currentPiece_updateHoldPiecePositions (st : GameState) (hold : Hold) :
    (updateHoldPiecePositions st hold).currentPiece = st.currentPiece := by
  unfold updateHoldPiecePositions
  apply foldl_pres
  intro st2 i
  rfl

@[simp]
theorem currentPiece_updatePiecePositions (s : GameState) :
    (updatePiecePositions s).currentPiece = s.currentPiece := by
  simp only [updatePiecePositions]
  rw [foldl_pres GameState.currentPiece updateHoldPiecePositions
    (fun st a => currentPiece_updateHoldPiecePositions st a)]
  split <;> rfl

@[simp]
theorem pendingSpawn_updateHoldPiecePositions (st : GameState) (hold : Hold) :
    (updateHoldPiecePositions st hold).pendingSpawn = st.pendingSpawn := by
  unfold updateHoldPiecePositions
  apply foldl_pres
  intro st2 i
  rfl

@[simp]
theorem pendingSpawn_updatePiecePositions (s : GameState) :
    (updatePiecePositions s).pendingSpawn = s.pendingSpawn := by
  simp only [updatePiecePositions]
  rw [foldl_pres GameState.pendingSpawn updateHoldPiecePositions
    (fun st a => pendingSpawn_updateHoldPiecePositions st a)]
  split <;> rfl

@[simp]
theorem nextId_updateHoldPiecePositions (st : GameState) (hold : Hold) :
    (updateHoldPiecePositions st hold).nextId = st.nextId := by
  unfold updateHoldPiecePositions
  apply foldl_pres
  intro st2 i
  rfl

@[simp]
theorem nextId_updatePiecePositions (s : GameState) :
    (updatePiecePositions s).nextId = s.nextId := by
  simp only [updatePiecePositions]
  rw [foldl_pres GameState.nextId updateHoldPiecePositions
    (fun st a => nextId_updateHoldPiecePositions st a)]
  split <;> rfl

theorem zoneEntryStage_of_none (s : GameState) (h : s.currentPiece = none) :
    zoneEntryStage s = s := by
  unfold zoneEntryStage
  rw [h]

theorem autoDropStage_of_none (t : ℚ) (s : GameState) (h : s.currentPiece = none) :
    autoDropStage t s = s := by
  unfold autoDropStage
  rw [h]

theorem pendingSpawnStage_not_elapsed (t : ℚ) (s : GameState)
    (hp : s.pendingSpawn = true) (hc : s.currentPiece = none)
    (ht : t - s.lastHoldTime < HOLD_SPAWN_DELAY) :
    pendingSpawnStage t s = s := by
  unfold pendingSpawnStage
  rw [hp, hc]
  rw [if_pos (by simp), if_neg (not_le.mpr ht)]

theorem pendingSpawnStage_elapsed (t : ℚ) (s : GameState)
    (hp : s.pendingSpawn = true) (hc : s.currentPiece = none)
    (ht : t - s.lastHoldTime ≥ HOLD_SPAWN_DELAY) :
    pendingSpawnStage t s = { (spawnPiece s) with pendingSpawn := false } := by
  unfold pendingSpawnStage
  rw [hp, hc]
  rw [if_pos (by simp), if_pos ht]

theorem holdTargetingStep_of_not_dragging (s : GameState) (h : s.isDraggingPiece = false) :
    holdTargetingStep s = s := by
  unfold holdTargetingStep
  rw [h]
  simp

theorem handleHandSide_none_notarget (rm : RMath) (input : Input) (side : Side)
    (s : GameState) (hh : input.hand side = none) (ht : (getInter s side).target = none) :
    handleHandSide rm input side s =
      setInter s side
        { (getInter s side) with state := IState.IDLE, target := none, grabAngle := none } := by
  simp only [handleHandSide, hh, ht]

theorem map_id_of {α : Type} (l : List α) (g : α → α) (h : ∀ e ∈ l, g e = e) :
    l.map g = l := by
  induction l with
  | nil => rfl
  | cons a l ih =>
    rw [List.map_cons, h a (List.mem_cons_self a l),
      ih fun e he => h e (List.mem_cons_of_mem a he)]

theorem setPiece_eq_self (s : GameState) (pid : Nat) (f : Piece → Piece)
    (h : ∀ e ∈ s.pieces, e.1 = pid → f e.2 = e.2) : setPiece s pid f = s := by
  unfold setPiece
  rw [map_id_of]
  intro e he
  by_cases hp : e.1 = pid
  · rw [if_pos (by simpa using hp), h e he hp]
  · rw [if_neg (by simpa using hp)]

theorem find?_entry_map (pid q : Nat) (f : Piece → Piece) :
    ∀ l : List (Nat × Piece),
      (List.find? (fun e => e.1 == q) (l.map fun e => if e.1 == pid then (e.1, f e.2) else e)).map
          (fun e => e.2) =
        if q = pid then (List.find? (fun e => e.1 == q) l).map fun e => f e.2
        else (List.find? (fun e => e.1 == q) l).map fun e => e.2
  | [] => by split <;> rfl
  | e :: l => by
    have tail := find?_entry_map pid q f l
    by_cases hpid : e.1 = pid
    · by_cases hq : e.1 = q
      · have hqp : q = pid := by omega
        rw [List.map_cons, if_pos (by simpa using hpid),
          List.find?_cons_of_pos _ (by simpa using hq),
          List.find?_cons_of_pos _ (by simpa using hq), if_pos hqp]
        simp
      · rw [List.map_cons, if_pos (by simpa using hpid),
          List.find?_cons_of_neg _ (by simpa using hq),
          List.find?_cons_of_neg _ (by simpa using hq)]
        exact tail
    · by_cases hq : e.1 = q
      · have hqp : ¬(q = pid) := by omega
        rw [List.map_cons, if_neg (by simpa using hpid),
          List.find?_cons_of_pos _ (by simpa using hq),
          List.find?_cons_of_pos _ (by simpa using hq), if_neg hqp]
      · rw [List.map_cons, if_neg (by simpa using hpid),
          List.find?_cons_of_neg _ (by simpa using hq),
          List.find?_cons_of_neg _ (by simpa using hq)]
        exact tail

theorem lookupPiece_setPiece (s : GameState) (pid : Nat) (f : Piece → Piece) (q : Nat) :
    lookupPiece (setPiece s pid f) q =
      if q = pid then (lookupPiece s q).map f else lookupPiece s q := by
  unfold lookupPiece setPiece
  simp only []
  rw [find?_entry_map pid q f s.pieces]
  split <;> simp [Option.map_map, Function.comp_def]

theorem lookupPiece_alloc (s : GameState) (p : Piece) (nid : Nat)
    (hfresh : ∀ e ∈ s.pieces, e.1 ≠ nid) :
    lookupPiece { s with pieces := s.pieces ++ [(nid, p)] } nid = some p := by
  unfold lookupPiece
  simp only []
  rw [List.find?_append]
  have hnone : s.pieces.find? (fun e => e.1 == nid) = none :=
    List.find?_eq_none.mpr (by intro x hx; simpa using hfresh x hx)
  rw [hnone]
  simp [List.find?]

theorem animatePieces_of_ungrabbed (rm : RMath) (s : GameState)
    (h : ∀ e ∈ s.pieces, e.2.isGrabbed = false) : animatePieces rm s = s := by
  unfold animatePieces
  generalize (match s.currentPiece with
    | some c => [c]
    | none => []) ++ s.holds.flatMap (fun h => h.pieces) = ids
  induction ids with
  | nil => rfl
  | cons a l ih =>
    rw [List.foldl_cons, setPiece_eq_self s a _ ?_, ih]
    intro e he _
    simp [h e he]

theorem currentPiece_handleHandSide_none (rm : RMath) (input : Input) (side : Side)
    (s : GameState) (hh : input.hand side = none) :
    (handleHandSide rm input side s).currentPiece = s.currentPiece := by
  unfold handleHandSide
  rw [hh]
  repeat' split
  all_goals simp_all
  all_goals (split <;> rfl)

theorem pendingSpawn_handleHandSide_none (rm : RMath) (input : Input) (side : Side)
    (s : GameState) (hh : input.hand side = none) :
    (handleHandSide rm input side s).pendingSpawn = s.pendingSpawn := by
  unfold handleHandSide
  rw [hh]
  repeat' split
  all_goals simp_all
  all_goals (split <;> rfl)

theorem nextId_handleHandSide_none (rm : RMath) (input : Input) (side : Side)
    (s : GameState) (hh : input.hand side = none) :
    (handleHandSide rm input side s).nextId = s.nextId := by
  unfold handleHandSide
  rw [hh]
  repeat' split
  all_goals simp_all
  all_goals (split <;> rfl)

@[simp]
theorem currentPiece_animatePieces (rm : RMath) (s : GameState) :
    (animatePieces rm s).currentPiece = s.currentPiece := by
  unfold animatePieces
  apply foldl_pres
  intro st a
  rfl

@[simp]
theorem pendingSpawn_animatePieces (rm : RMath) (s : GameState) :
    (animatePieces rm s).pendingSpawn = s.pendingSpawn := by
  unfold animatePieces
  apply foldl_pres
  intro st a
  rfl

@[simp]
theorem nextId_animatePieces (rm : RMath) (s : GameState) :
    (animatePieces rm s).nextId = s.nextId := by
  unfold animatePieces
  apply foldl_pres
  intro st a
  rfl

@[simp]
theorem currentPiece_holdTargetingStep (s : GameState) :
    (holdTargetingStep s).currentPiece = s.currentPiece := by
  unfold holdTargetingStep
  repeat' split
  all_goals rfl

@[simp]
theorem pendingSpawn_holdTargetingStep (s : GameState) :
    (holdTargetingStep s).pendingSpawn = s.pendingSpawn := by
  unfold holdTargetingStep
  repeat' split
  all_goals rfl

@[simp]
theorem nextId_holdTargetingStep (s : GameState) :
    (holdTargetingStep s).nextId = s.nextId := by
  unfold holdTargetingStep
  repeat' split
  all_goals rfl

theorem handleHandInteraction_inert (rm : RMath) (input : Input) (st : GameState)
    (hL : input.left = none) (hR : input.right = none)
    (htL : st.interLeft.target = none) (htR : st.interRight.target = none)
    (hug : ∀ e ∈ st.pieces, e.2.isGrabbed = false) :
    handleHandInteraction rm input st =
      setInter
        (setInter { st with isDraggingPiece := false, draggedPiece := none } Side.left
          { st.interLeft with state := IState.IDLE, target := none, grabAngle := none })
        Side.right
        { st.interRight with state := IState.IDLE, target := none, grabAngle := none } := by
  simp only [handleHandInteraction]
  rw [handleHandSide_none_notarget rm input Side.left
    { st with isDraggingPiece := false, draggedPiece := none } hL htL]
  rw [handleHandSide_none_notarget rm input Side.right
    (setInter { st with isDraggingPiece := false, draggedPiece := none } Side.left
      { (getInter { st with isDraggingPiece := false, draggedPiece := none } Side.left) with
          state := IState.IDLE, target := none, grabAngle := none })
    hR (by simpa [getInter, setInter] using htR)]
  rw [animatePieces_of_ungrabbed _ _ (by
    intro e he
    exact hug e (by simpa [setInter] using he))]
  rw [holdTargetingStep_of_not_dragging _ (by simp [setInter])]
  rfl

theorem autoDropStage_fresh (t : ℚ) (st : GameState) (nid : Nat) (p : Piece)
    (hcur : st.currentPiece = some nid)
    (hlook : lookupPiece st nid = some p)
    (hg : p.isGrabbed = false) (hy : p.y < 0) (hy1 : ¬(p.y + 1 ≥ 0)) :
    (autoDropStage t st).currentPiece = st.currentPiece ∧
      (autoDropStage t st).nextId = st.nextId ∧
      (autoDropStage t st).pendingSpawn = st.pendingSpawn := by
  unfold autoDropStage
  rw [hcur]
  simp only [getPieceD, hlook, Option.getD_some, hg, Bool.not_false, if_true]
  split
  · have hdrop : ∀ st' : GameState, st'.currentPiece = some nid → lookupPiece st' nid = some p →
        (dropPiece st').currentPiece = st'.currentPiece ∧ (dropPiece st').nextId = st'.nextId ∧
          (dropPiece st').pendingSpawn = st'.pendingSpawn := by
      intro st' hcur' hlook'
      unfold dropPiece
      simp only [hcur', hlook']
      rw [if_neg (show ¬(p.isGrabbed = true) from by simp [hg]),
        if_pos (show p.y < 0 from hy), if_neg (show ¬(p.y + 1 ≥ 0) from hy1)]
      exact ⟨hcur', rfl, rfl⟩
    obtain ⟨h1, h2, h3⟩ :=
      hdrop { st with currentPiece := some nid, lastDropTime := t } rfl hlook
    exact ⟨h1, h2, h3⟩
  · exact ⟨hcur, rfl, rfl⟩

/-- C9 amended: dropping the active piece into an accepting hold slot clears
the active piece, sets the pending-spawn flag and records the hold time —
but the recorded value comes from an ambient clock read
(`performance.now()`) inside `handleDrop`, not from the update-supplied
timestamp (see the counterexample).  Relative to the recorded value, with no
hands in view: an update whose supplied timestamp is less than
`lastHoldTime + HOLD_SPAWN_DELAY` spawns nothing (no allocation, no active
piece, still pending), and an update at or after that instant with no active
piece spawns exactly one new piece. -/
theorem C9_hold_spawn_delay :
    (∀ (now : ℚ) (s : GameState) (pid : Nat) (x y : ℚ) (piece : Piece) (i : Nat),
        lookupPiece s pid = some piece →
        s.holds.findIdx? (fun h => holdContains h x y) = some i →
        canAddHold (s.holds.getD i defaultHold) piece.type = true →
        s.currentPiece = some pid →
        (handleDrop now s pid x y).currentPiece = none ∧
          (handleDrop now s pid x y).pendingSpawn = true ∧
          (handleDrop now s pid x y).lastHoldTime = now) ∧
    (∀ (rm : RMath) (input : Input) (s : GameState),
        input.left = none → input.right = none →
        s.pendingSpawn = true → s.currentPiece = none →
        input.time - s.lastHoldTime < HOLD_SPAWN_DELAY →
        (update rm input s).currentPiece = none ∧
          (update rm input s).pendingSpawn = true ∧
          (update rm input s).nextId = s.nextId) ∧
    (∀ (rm : RMath) (input : Input) (s : GameState),
        input.left = none → input.right = none →
        s.pendingSpawn = true → s.currentPiece = none →
        input.time - s.lastHoldTime ≥ HOLD_SPAWN_DELAY →
        (∀ e ∈ s.pieces, e.1 < s.nextId) →
        (∀ e ∈ s.pieces, e.2.isGrabbed = false) →
        s.interLeft.target = none → s.interRight.target = none →
        (update rm input s).currentPiece = some s.nextId ∧
          (update rm input s).pendingSpawn = false ∧
          (update rm input s).nextId = s.nextId + 1) := by
  refine ⟨?_, ?_, ?_⟩
  · intro now s pid x y piece i hl hf hcan hc
    unfold handleDrop
    simp only [hl, hf]
    rw [if_pos hcan, hc]
    simp only [beq_self_eq_true, if_true, ite_true]
    exact ⟨rfl, rfl, rfl⟩
  · intro rm input s hL hR hp hc ht
    simp only [update]
    rw [zoneEntryStage_of_none _ (show (layoutStage input s).currentPiece = none from hc)]
    rw [pendingSpawnStage_not_elapsed input.time _
      (show (layoutStage input s).pendingSpawn = true from hp)
      (show (layoutStage input s).currentPiece = none from hc)
      (show input.time - (layoutStage input s).lastHoldTime < HOLD_SPAWN_DELAY from ht)]
    split
    · have hHIc : (handleHandInteraction rm input (layoutStage input s)).currentPiece = none := by
        unfold handleHandInteraction
        simp only [currentPiece_holdTargetingStep, currentPiece_animatePieces]
        rw [currentPiece_handleHandSide_none rm input Side.right _ hR,
          currentPiece_handleHandSide_none rm input Side.left _ hL]
        exact hc
      have hHIp : (handleHandInteraction rm input (layoutStage input s)).pendingSpawn = true := by
        unfold handleHandInteraction
        simp only [pendingSpawn_holdTargetingStep, pendingSpawn_animatePieces]
        rw [pendingSpawn_handleHandSide_none rm input Side.right _ hR,
          pendingSpawn_handleHandSide_none rm input Side.left _ hL]
        exact hp
      have hHIn : (handleHandInteraction rm input (layoutStage input s)).nextId = s.nextId := by
        unfold handleHandInteraction
        simp only [nextId_holdTargetingStep, nextId_animatePieces]
        rw [nextId_handleHandSide_none rm input Side.right _ hR,
          nextId_handleHandSide_none rm input Side.left _ hL]
        rfl
      rw [autoDropStage_of_none _ _ hHIc]
      exact ⟨by simp [hHIc], by simp [hHIp], by simp [hHIn]⟩
    · rw [autoDropStage_of_none _ _ (show (layoutStage input s).currentPiece = none from hc)]
      exact ⟨by simpa using hc, by simpa using hp,
        (nextId_updatePiecePositions _).trans rfl⟩
  · intro rm input s hL hR hp hc ht hfresh hug htL htR
    simp only [update]
    rw [zoneEntryStage_of_none _ (show (layoutStage input s).currentPiece = none from hc)]
    rw [pendingSpawnStage_elapsed input.time _
      (show (layoutStage input s).pendingSpawn = true from hp)
      (show (layoutStage input s).currentPiece = none from hc)
      (show input.time - (layoutStage input s).lastHoldTime ≥ HOLD_SPAWN_DELAY from ht)]
    have h3look :
        lookupPiece { (spawnPiece (layoutStage input s)) with pendingSpawn := false } s.nextId =
          some
            { type := s.bag.headD Tet.I, shape := SHAPES (s.bag.headD Tet.I),
              x := ((COLS : Int) - (((SHAPES (s.bag.headD Tet.I)).getD 0 []).length : Int)) / 2,
              y := -SPAWN_TICKS - ((SHAPES (s.bag.headD Tet.I)).length : Int),
              isGrabbed := false, inPlayZone := false, screenX := 0, screenY := 0,
              targetScreenX := 0, targetScreenY := 0 } :=
      lookupPiece_alloc (layoutStage input s) _ s.nextId
        (by intro e he; have := hfresh e he; omega)
    have hyneg : (-SPAWN_TICKS - ((SHAPES (s.bag.headD Tet.I)).length : Int)) < 0 := by
      have hlen : (0 : Int) ≤ ((SHAPES (s.bag.headD Tet.I)).length : Int) := Int.ofNat_nonneg _
      unfold SPAWN_TICKS
      omega
    have hyneg1 : ¬((-SPAWN_TICKS - ((SHAPES (s.bag.headD Tet.I)).length : Int)) + 1 ≥ 0) := by
      have hlen : (0 : Int) ≤ ((SHAPES (s.bag.headD Tet.I)).length : Int) := Int.ofNat_nonneg _
      unfold SPAWN_TICKS
      omega
    have hXtL : ({ (spawnPiece (layoutStage input s)) with
        pendingSpawn := false } : GameState).interLeft.target = none := by
      have h := getInter_spawnPiece (layoutStage input s) Side.left
      simp only [getInter] at h
      show (spawnPiece (layoutStage input s)).interLeft.target = none
      rw [h]
      exact htL
    have hXtR : ({ (spawnPiece (layoutStage input s)) with
        pendingSpawn := false } : GameState).interRight.target = none := by
      have h := getInter_spawnPiece (layoutStage input s) Side.right
      simp only [getInter] at h
      show (spawnPiece (layoutStage input s)).interRight.target = none
      rw [h]
      exact htR
    have hXug : ∀ e ∈ ({ (spawnPiece (layoutStage input s)) with
        pendingSpawn := false } : GameState).pieces, e.2.isGrabbed = false := by
      intro e he
      rcases List.mem_append.mp he with he | he
      · exact hug e he
      · simp at he
        subst he
        rfl
    split
    · have hinert := handleHandInteraction_inert rm input
        { (spawnPiece (layoutStage input s)) with pendingSpawn := false } hL hR hXtL hXtR hXug
      have hZc : (handleHandInteraction rm input
          { (spawnPiece (layoutStage input s)) with
            pendingSpawn := false }).currentPiece = some s.nextId := by
        rw [hinert]
        rfl
      have hZp : (handleHandInteraction rm input
          { (spawnPiece (layoutStage input s)) with
            pendingSpawn := false }).pendingSpawn = false := by
        rw [hinert]
        rfl
      have hZn : (handleHandInteraction rm input
          { (spawnPiece (layoutStage input s)) with
            pendingSpawn := false }).nextId = s.nextId + 1 := by
        rw [hinert]
        rfl
      obtain ⟨h1, h2, h3⟩ := autoDropStage_fresh input.time
        (handleHandInteraction rm input
          { (spawnPiece (layoutStage input s)) with pendingSpawn := false })
        s.nextId _ hZc (by rw [hinert]; exact h3look) rfl hyneg hyneg1
      refine ⟨?_, ?_, ?_⟩
      · exact (currentPiece_updatePiecePositions _).trans (h1.trans hZc)
      · exact (pendingSpawn_updatePiecePositions _).trans (h3.trans hZp)
      · exact (nextId_updatePiecePositions _).trans (h2.trans hZn)
    · obtain ⟨h1, h2, h3⟩ := autoDropStage_fresh input.time _ s.nextId _
        (show _ = some s.nextId from rfl) h3look rfl hyneg hyneg1
      refine ⟨?_, ?_, ?_⟩
      · exact (currentPiece_updatePiecePositions _).trans (h1.trans rfl)
      · exact (pendingSpawn_updatePiecePositions _).trans (h3.trans rfl)
      · exact (nextId_updatePiecePositions _).trans (h2.trans rfl)

/-- Witness for C9: dropping piece 0 of `c9Base` onto hold slot 0 at supplied
clock value 123 clears the active piece, sets the pending-spawn flag and
records hold time 123. -/
theorem C9_hold_spawn_delay_witness :
    (handleDrop 123 c9Base 0 45 65).currentPiece = none ∧
      (handleDrop 123 c9Base 0 45 65).pendingSpawn = true ∧
      (handleDrop 123 c9Base 0 45 65).lastHoldTime = 123 :=
  C9_hold_spawn_delay.1 123 c9Base 0 45 65 (getPieceD c9Base 0) 0
    (by decide) (by decide) (by decide) (by decide)

@[simp]
theorem board_setPiece (s : GameState) (pid : Nat) (f : Piece → Piece) :
    (setPiece s pid f).board = s.board := rfl

@[simp]
theorem currentPiece_setPiece (s : GameState) (pid : Nat) (f : Piece → Piece) :
    (setPiece s pid f).currentPiece = s.currentPiece := rfl

@[simp]
theorem holds_setPiece (s : GameState) (pid : Nat) (f : Piece → Piece) :
    (setPiece s pid f).holds = s.holds := rfl

@[simp]
theorem nextId_setPiece (s : GameState) (pid : Nat) (f : Piece → Piece) :
    (setPiece s pid f).nextId = s.nextId := rfl

@[simp]
theorem lastHoldTime_setPiece (s : GameState) (pid : Nat) (f : Piece → Piece) :
    (setPiece s pid f).lastHoldTime = s.lastHoldTime := rfl

@[simp]
theorem pendingSpawn_setPiece (s : GameState) (pid : Nat) (f : Piece → Piece) :
    (setPiece s pid f).pendingSpawn = s.pendingSpawn := rfl

@[simp]
theorem board_setInter (s : GameState) (sd : Side) (it : Interaction) :
    (setInter s sd it).board = s.board := by cases sd <;> rfl

@[simp]
theorem holds_setInter (s : GameState) (sd : Side) (it : Interaction) :
    (setInter s sd it).holds = s.holds := by cases sd <;> rfl

@[simp]
theorem lastHoldTime_setInter (s : GameState) (sd : Side) (it : Interaction) :
    (setInter s sd it).lastHoldTime = s.lastHoldTime := by cases sd <;> rfl

theorem lookupPiece_setInter (s : GameState) (sd : Side) (it : Interaction) (pid : Nat) :
    lookupPiece (setInter s sd it) pid = lookupPiece s pid := by cases sd <;> rfl

theorem canMovePos_below (b : Board) (shape : List (List Bool)) (px py : Int)
    (hfill : shapeFilled shape = true) (hpy : (ROWS : Int) ≤ py) :
    canMovePos b shape px py 0 1 = false := by
  rw [Bool.eq_false_iff]
  intro hall
  obtain ⟨row, hrowmem, hrowany⟩ := List.any_eq_true.mp hfill
  obtain ⟨x, hxmem, hx⟩ := List.any_eq_true.mp hrowany
  obtain ⟨r, hr, hrow⟩ := List.mem_iff_getElem.mp hrowmem
  obtain ⟨c, hc, hcx⟩ := List.mem_iff_getElem.mp hxmem
  have hgr : shape.getD r [] = row := by
    rw [List.getD_eq_getElem?_getD, List.getElem?_eq_getElem hr, hrow]
    rfl
  have hcell : shapeCell shape r c = true := by
    unfold shapeCell
    rw [hgr, List.getD_eq_getElem?_getD, List.getElem?_eq_getElem hc, hcx]
    exact hx
  have h1 := List.all_eq_true.mp hall r (List.mem_range.mpr hr)
  have h2 := List.all_eq_true.mp h1 c (List.mem_range.mpr (by rw [hgr]; exact hc))
  simp only [hcell, Bool.not_true, Bool.false_or, Bool.and_eq_true, decide_eq_true_eq] at h2
  omega

theorem slideDown_ge (b : Board) (shape : List (List Bool)) (px : Int) :
    ∀ (fuel : Nat) (py : Int), py ≤ slideDown b shape px fuel py := by
  intro fuel
  induction fuel with
  | zero => intro py; simp [slideDown]
  | succ n ih =>
    intro py
    simp only [slideDown]
    split
    · exact le_trans (by omega) (ih (py + 1))
    · exact le_refl py

theorem slideDown_mid (b : Board) (shape : List (List Bool)) (px : Int) :
    ∀ (fuel : Nat) (py y : Int), py ≤ y → y < slideDown b shape px fuel py →
      canMovePos b shape px y 0 1 = true := by
  intro fuel
  induction fuel with
  | zero =>
    intro py y h1 h2
    simp only [slideDown] at h2
    omega
  | succ n ih =>
    intro py y h1 h2
    simp only [slideDown] at h2
    by_cases hm : canMovePos b shape px py 0 1 = true
    · rw [if_pos hm] at h2
      rcases eq_or_lt_of_le h1 with rfl | hlt
      · exact hm
      · exact ih (py + 1) y (by omega) h2
    · rw [if_neg hm] at h2
      omega

theorem slideDown_stop (b : Board) (shape : List (List Bool)) (px : Int)
    (hfill : shapeFilled shape = true) :
    ∀ (fuel : Nat) (py : Int), (ROWS : Int) - py < fuel →
      canMovePos b shape px (slideDown b shape px fuel py) 0 1 = false := by
  intro fuel
  induction fuel with
  | zero =>
    intro py h
    simp only [slideDown]
    exact canMovePos_below b shape px py hfill (by omega)
  | succ n ih =>
    intro py h
    simp only [slideDown]
    split
    · exact ih (py + 1) (by omega)
    · rename_i hm
      exact Bool.eq_false_iff.mpr hm

theorem hardDrop_spec (t : GameState) (pid : Nat) (p : Piece)
    (hc : t.currentPiece = some pid) (hl : lookupPiece t pid = some p) :
    (hardDrop t).board =
        clearLines (lockBoard t.board p.shape p.x
          (slideDown t.board p.shape p.x (((ROWS : Int) - p.y).toNat + 1) p.y) p.type) ∧
      (hardDrop t).currentPiece = some t.nextId ∧
      (hardDrop t).nextId = t.nextId + 1 ∧
      (hardDrop t).holds = t.holds ∧
      (hardDrop t).lastHoldTime = t.lastHoldTime ∧
      (hardDrop t).pendingSpawn = t.pendingSpawn := by
  simp only [hardDrop, hc, hl]
  have hl2 : lookupPiece (setPiece t pid fun q =>
        { q with y := slideDown t.board p.shape p.x (((ROWS : Int) - p.y).toNat + 1) p.y })
        pid =
      some { p with y := slideDown t.board p.shape p.x (((ROWS : Int) - p.y).toNat + 1) p.y } := by
    rw [lookupPiece_setPiece, if_pos rfl, hl]
    rfl
  simp only [lockPieceS, currentPiece_setPiece, hc, hl2]
  simp only [clearLinesS, spawnPiece]
  exact ⟨rfl, rfl, rfl, rfl, rfl, rfl⟩

/-- C10: a release (pinch distance above the release threshold 0.15) by a
hand whose grab is a play-zone grab of the active piece triggers an immediate
hard drop inside the same `handleHandSide` call: the piece's y advances to
the last row reachable while `canMove(0, 1)` holds (every intermediate
position passes the check, the final one fails it), the piece is locked into
the board, full lines are cleared and a new piece is spawned immediately.
The drop point is never tested against the hold slots or the spawn zone:
the holds, the hold timestamp and the pending-spawn flag are untouched, and
the hand's interaction state is reset to IDLE. -/
theorem C10_playzone_release_hard_drops
    (rm : RMath) (input : Input) (side : Side) (s : GameState)
    (hand : HandInput) (pid : Nat) (p : Piece) (yEnd : Int)
    (hh : input.hand side = some hand)
    (hst : (getInter s side).state = IState.GRABBING ∨
      (getInter s side).state = IState.DRAGGING)
    (hrel : hand.dist > 15/100)
    (hpz : (getInter s side).isPlayZoneGrab = true)
    (htg : (getInter s side).target = some pid)
    (hcur : s.currentPiece = some pid)
    (hlook : lookupPiece s pid = some p)
    (hfill : shapeFilled p.shape = true)
    (hy : yEnd = slideDown s.board p.shape p.x (((ROWS : Int) - p.y).toNat + 1) p.y) :
    (handleHandSide rm input side s).board =
        clearLines (lockBoard s.board p.shape p.x yEnd p.type) ∧
      (handleHandSide rm input side s).currentPiece = some s.nextId ∧
      (handleHandSide rm input side s).nextId = s.nextId + 1 ∧
      (handleHandSide rm input side s).holds = s.holds ∧
      (handleHandSide rm input side s).lastHoldTime = s.lastHoldTime ∧
      (handleHandSide rm input side s).pendingSpawn = s.pendingSpawn ∧
      (getInter (handleHandSide rm input side s) side).state = IState.IDLE ∧
      p.y ≤ yEnd ∧
      (∀ y : Int, p.y ≤ y → y < yEnd → canMovePos s.board p.shape p.x y 0 1 = true) ∧
      canMovePos s.board p.shape p.x yEnd 0 1 = false := by
  have heq : handleHandSide rm input side s =
      setInter
        (hardDrop (setInter s side
          { (getInter s side) with
              smoothedPos := some (smoothedMid (getInter s side) hand input.w input.h) }))
        side
        { (getInter (hardDrop (setInter s side
            { (getInter s side) with
                smoothedPos := some (smoothedMid (getInter s side) hand input.w input.h) }))
            side) with
            state := IState.IDLE
            target := none
            grabOffset := none
            grabAngle := none
            isPlayZoneGrab := false
            currentRotation := none } := by
    rcases hst with h | h <;>
      simp [handleHandSide, hh, smoothedMid, h, hpz, htg, hcur, decide_eq_true hrel]
  have hs1c : (setInter s side
      { (getInter s side) with
          smoothedPos := some (smoothedMid (getInter s side) hand input.w input.h) }
      ).currentPiece = some pid := by
    rw [currentPiece_setInter]
    exact hcur
  have hs1l : lookupPiece (setInter s side
      { (getInter s side) with
          smoothedPos := some (smoothedMid (getInter s side) hand input.w input.h) }) pid =
      some p := by
    rw [lookupPiece_setInter]
    exact hlook
  obtain ⟨hb, hcp, hn, hhds, hlt, hps⟩ := hardDrop_spec _ pid p hs1c hs1l
  refine ⟨?_, ?_, ?_, ?_, ?_, ?_, ?_, ?_, ?_, ?_⟩
  · rw [heq, board_setInter, hb, board_setInter, hy]
  · rw [heq, currentPiece_setInter, hcp, nextId_setInter]
  · rw [heq, nextId_setInter, hn, nextId_setInter]
  · rw [heq, holds_setInter, hhds, holds_setInter]
  · rw [heq, lastHoldTime_setInter, hlt, lastHoldTime_setInter]
  · rw [heq, pendingSpawn_setInter, hps, pendingSpawn_setInter]
  · rw [heq, getInter_setInter, if_pos rfl]
  · rw [hy]
    exact slideDown_ge s.board p.shape p.x _ p.y
  · intro y h1 h2
    rw [hy] at h2
    exact slideDown_mid s.board p.shape p.x _ p.y y h1 h2
  · rw [hy]
    exact slideDown_stop s.board p.shape p.x hfill _ p.y (by omega)

/-- Witness for C10: releasing the play-zone grab on the O piece at y = 5
of `c10State` hard-drops it (its resting row is 18), locks and clears, spawns
the next piece (id 1), and leaves the holds, hold timestamp, pending-spawn
flag untouched and the left interaction IDLE. -/
theorem C10_playzone_release_hard_drops_witness :
    (handleHandSide rm0 c10In Side.left c10State).board =
        clearLines (lockBoard c10State.board (getPieceD c10State 0).shape
          (getPieceD c10State 0).x 18 (getPieceD c10State 0).type) ∧
      (handleHandSide rm0 c10In Side.left c10State).currentPiece = some c10State.nextId ∧
      (handleHandSide rm0 c10In Side.left c10State).nextId = c10State.nextId + 1 ∧
      (handleHandSide rm0 c10In Side.left c10State).holds = c10State.holds ∧
      (handleHandSide rm0 c10In Side.left c10State).lastHoldTime = c10State.lastHoldTime ∧
      (handleHandSide rm0 c10In Side.left c10State).pendingSpawn = c10State.pendingSpawn ∧
      (getInter (handleHandSide rm0 c10In Side.left c10State) Side.left).state = IState.IDLE ∧
      (getPieceD c10State 0).y ≤ 18 ∧
      (∀ y : Int, (getPieceD c10State 0).y ≤ y → y < 18 →
        canMovePos c10State.board (getPieceD c10State 0).shape (getPieceD c10State 0).x
          y 0 1 = true) ∧
      canMovePos c10State.board (getPieceD c10State 0).shape (getPieceD c10State 0).x
        18 0 1 = false :=
  C10_playzone_release_hard_drops rm0 c10In Side.left c10State (handAt400 (2/10)) 0
    (getPieceD c10State 0) 18 (by decide) (Or.inl (by decide)) (by decide) (by decide)
    (by decide) (by decide) (by decide) (by decide) (by decide)

theorem mem_modifyIdx {α : Type} (d : α) :
    ∀ (l : List α) (i : Nat) (f : α → α) (x : α), x ∈ modifyIdx l i f →
      x ∈ l ∨ (i < l.length ∧ x = f (l.getD i d)) := by
  intro l
  induction l with
  | nil => intro i f x hx; exact absurd hx (by simp [modifyIdx])
  | cons a t ih =>
    intro i f x hx
    cases i with
    | zero =>
      rcases List.mem_cons.mp hx with h | h
      · exact Or.inr ⟨by simp, by simpa using h⟩
      · exact Or.inl (List.mem_cons_of_mem a h)
    | succ n =>
      rcases List.mem_cons.mp hx with h | h
      · exact Or.inl (h ▸ List.mem_cons_self a t)
      · rcases ih n f x h with h2 | ⟨h2, h3⟩
        · exact Or.inl (List.mem_cons_of_mem a h2)
        · exact Or.inr ⟨by simpa using h2, by simpa using h3⟩

theorem getD_modifyIdx_ne {α : Type} (d : α) :
    ∀ (l : List α) (i j : Nat) (f : α → α), i ≠ j →
      (modifyIdx l j f).getD i d = l.getD i d := by
  intro l
  induction l with
  | nil => intro i j f _; simp [modifyIdx]
  | cons a t ih =>
    intro i j f hij
    cases j with
    | zero =>
      cases i with
      | zero => exact absurd rfl hij
      | succ m => simp [modifyIdx]
    | succ n =>
      cases i with
      | zero => simp [modifyIdx]
      | succ m =>
        simp only [modifyIdx, List.getD_cons_succ]
        exact ih m n f (by omega)

theorem getD_modifyIdx_self {α : Type} (d : α) :
    ∀ (l : List α) (j : Nat) (f : α → α), j < l.length →
      (modifyIdx l j f).getD j d = f (l.getD j d) := by
  intro l
  induction l with
  | nil => intro j f h; exact absurd h (by simp)
  | cons a t ih =>
    intro j f h
    cases j with
    | zero => simp [modifyIdx]
    | succ n =>
      simp only [modifyIdx, List.getD_cons_succ]
      exact ih n f (by simpa using h)

theorem lookupPiece_congr {s s' : GameState} (h : s'.pieces = s.pieces) (pid : Nat) :
    lookupPiece s' pid = lookupPiece s pid := by
  unfold lookupPiece
  rw [h]

theorem TypePres_refl (s : GameState) : TypePres s s :=
  ⟨rfl, fun _ p h => ⟨p, h, rfl⟩⟩

theorem TypePres_trans {s t u : GameState} (h1 : TypePres s t) (h2 : TypePres t u) :
    TypePres s u := by
  refine ⟨h2.1.trans h1.1, ?_⟩
  intro pid p hp
  obtain ⟨p1, hp1, ht1⟩ := h1.2 pid p hp
  obtain ⟨p2, hp2, ht2⟩ := h2.2 pid p1 hp1
  exact ⟨p2, hp2, ht2.trans ht1⟩

theorem TypePres_of_eq {s s' : GameState} (hp : s'.pieces = s.pieces)
    (hh : s'.holds = s.holds) : TypePres s s' := by
  refine ⟨by rw [hh], ?_⟩
  intro pid p h
  exact ⟨p, (lookupPiece_congr hp pid).trans h, rfl⟩

theorem TypePres_setPiece (s : GameState) (pid : Nat) (f : Piece → Piece)
    (hf : ∀ q, (f q).type = q.type) : TypePres s (setPiece s pid f) := by
  refine ⟨rfl, ?_⟩
  intro q p h
  rw [lookupPiece_setPiece]
  split
  · exact ⟨f p, by rw [h]; rfl, hf p⟩
  · exact ⟨p, h, rfl⟩

theorem TypePres_setInter (s : GameState) (sd : Side) (it : Interaction) :
    TypePres s (setInter s sd it) :=
  TypePres_of_eq (pieces_setInter s sd it) (holds_setInter s sd it)

theorem TypePres_spawnPiece (s : GameState) : TypePres s (spawnPiece s) := by
  refine ⟨rfl, ?_⟩
  intro pid p h
  refine ⟨p, ?_, rfl⟩
  unfold lookupPiece at h ⊢
  simp only [spawnPiece]
  rw [List.find?_append]
  obtain ⟨e, he, hmap⟩ := Option.map_eq_some'.mp h
  rw [he]
  simpa using hmap

theorem HoldInv_of_TypePres {s s' : GameState} (htp : TypePres s s') (hinv : HoldInv s) :
    HoldInv s' := by
  intro h' hmem
  have hcore : holdCore h' ∈ s.holds.map holdCore := by
    rw [← htp.1]
    exact List.mem_map_of_mem holdCore hmem
  obtain ⟨h, hm, hch⟩ := List.mem_map.mp hcore
  have hps : h.pieces = h'.pieces := congrArg Prod.fst hch
  have hty : h.type = h'.type := congrArg Prod.snd hch
  obtain ⟨hlen, hempty, hall⟩ := hinv h hm
  refine ⟨by rw [← hps]; exact hlen, by rw [← hps, ← hty]; exact hempty, ?_⟩
  intro pid hpid
  obtain ⟨p, hp, hpt⟩ := hall pid (by rw [hps]; exact hpid)
  obtain ⟨p', hp', hpt'⟩ := htp.2 pid p hp
  exact ⟨p', hp', by rw [← hty, hpt, hpt']⟩

theorem rotatePieceP_type (b : Board) (q : Piece) : (rotatePieceP b q).type = q.type := by
  simp only [rotatePieceP]
  repeat' split
  all_goals rfl

theorem TypePres_lockPieceS (s : GameState) : TypePres s (lockPieceS s) := by
  unfold lockPieceS
  repeat' split
  all_goals first
    | exact TypePres_refl _
    | exact TypePres_of_eq rfl rfl

theorem TypePres_clearLinesS (s : GameState) : TypePres s (clearLinesS s) :=
  TypePres_of_eq rfl rfl

theorem TypePres_rotateCurrent (s : GameState) : TypePres s (rotateCurrent s) := by
  unfold rotateCurrent
  split
  · exact TypePres_refl _
  · exact TypePres_setPiece _ _ _ fun q => rotatePieceP_type s.board q

theorem TypePres_dropPiece (s : GameState) : TypePres s (dropPiece s) := by
  simp only [dropPiece]
  repeat' split
  all_goals first
    | exact TypePres_refl _
    | exact TypePres_setPiece _ _ _ (by intro q; rfl)
    | exact TypePres_trans (TypePres_setPiece _ _ _ (by intro q; rfl))
        (TypePres_setPiece _ _ _ (by intro q; rfl))
    | exact TypePres_trans (TypePres_lockPieceS _)
        (TypePres_trans (TypePres_clearLinesS _) (TypePres_spawnPiece _))

theorem TypePres_hardDrop (s : GameState) : TypePres s (hardDrop s) := by
  simp only [hardDrop]
  repeat' split
  all_goals first
    | exact TypePres_refl _
    | exact TypePres_trans (TypePres_setPiece _ _ _ (by intro q; rfl))
        (TypePres_trans (TypePres_lockPieceS _)
          (TypePres_trans (TypePres_clearLinesS _) (TypePres_spawnPiece _)))

theorem TypePres_rotationGesture (rm : RMath) (input : Input) (side : Side) (s : GameState)
    (cd ca : ℚ) : TypePres s (rotationGesture rm input side s cd ca) := by
  simp only [rotationGesture]
  repeat' split
  all_goals first
    | exact TypePres_setInter _ _ _
    | exact TypePres_trans (TypePres_rotateCurrent _) (TypePres_setInter _ _ _)
    | exact TypePres_trans (TypePres_rotateCurrent _)
        (TypePres_trans (TypePres_rotateCurrent _)
          (TypePres_trans (TypePres_rotateCurrent _) (TypePres_setInter _ _ _)))

theorem TypePres_playZoneControl (rm : RMath) (input : Input) (side : Side) (s : GameState)
    (cid : Nat) (midX midY : ℚ) : TypePres s (playZoneControl rm input side s cid midX midY) := by
  simp only [playZoneControl]
  repeat' split
  all_goals first
    | exact TypePres_refl _
    | exact TypePres_setInter _ _ _
    | exact TypePres_trans (TypePres_setInter _ _ _) (TypePres_setInter _ _ _)
    | exact TypePres_trans
        (TypePres_trans (TypePres_setPiece _ _ _ (by intro q; rfl)) (TypePres_setInter _ _ _))
        (TypePres_setInter _ _ _)
    | exact TypePres_trans (TypePres_setInter _ _ _) (TypePres_rotationGesture _ _ _ _ _ _)
    | exact TypePres_trans
        (TypePres_trans (TypePres_setInter _ _ _) (TypePres_rotationGesture _ _ _ _ _ _))
        (TypePres_trans (TypePres_setPiece _ _ _ (by intro q; rfl)) (TypePres_setInter _ _ _))
    | exact TypePres_trans (TypePres_setInter _ _ _)
        (TypePres_trans (TypePres_setPiece _ _ _ (by intro q; rfl)) (TypePres_setInter _ _ _))

theorem TypePres_animatePieces (rm : RMath) (s : GameState) :
    TypePres s (animatePieces rm s) := by
  unfold animatePieces
  generalize (match s.currentPiece with
    | some c => [c]
    | none => []) ++ s.holds.flatMap (·.pieces) = ids
  induction ids generalizing s with
  | nil => exact TypePres_refl s
  | cons a l ih =>
    rw [List.foldl_cons]
    exact TypePres_trans (TypePres_setPiece _ _ _ (by intro q; split <;> rfl)) (ih _)

theorem TypePres_holdTargetingStep (s : GameState) : TypePres s (holdTargetingStep s) := by
  unfold holdTargetingStep
  repeat' split
  all_goals try exact TypePres_refl _
  refine ⟨?_, fun pid p h => ⟨p, h, rfl⟩⟩
  show (List.map _ s.holds).map holdCore = s.holds.map holdCore
  rw [List.map_map]
  rfl

theorem TypePres_zoneEntryStage (s : GameState) : TypePres s (zoneEntryStage s) := by
  unfold zoneEntryStage
  repeat' split
  all_goals first
    | exact TypePres_refl _
    | exact TypePres_setPiece _ _ _ (by intro q; rfl)

theorem TypePres_pendingSpawnStage (t : ℚ) (s : GameState) :
    TypePres s (pendingSpawnStage t s) := by
  unfold pendingSpawnStage
  repeat' split
  all_goals first
    | exact TypePres_refl _
    | exact TypePres_trans (TypePres_spawnPiece _) (TypePres_of_eq rfl rfl)

theorem TypePres_autoDropStage (t : ℚ) (s : GameState) :
    TypePres s (autoDropStage t s) := by
  unfold autoDropStage
  repeat' split
  all_goals first
    | exact TypePres_refl _
    | exact TypePres_trans (TypePres_of_eq rfl rfl) (TypePres_dropPiece _)

theorem TypePres_updateHoldPiecePositions (st : GameState) (hold : Hold) :
    TypePres st (updateHoldPiecePositions st hold) := by
  unfold updateHoldPiecePositions
  generalize List.range hold.pieces.length = idxs
  induction idxs generalizing st with
  | nil => exact TypePres_refl st
  | cons a l ih =>
    rw [List.foldl_cons]
    exact TypePres_trans (TypePres_setPiece _ _ _ (by intro q; split <;> rfl)) (ih _)

theorem TypePres_foldl_updateHold (holds : List Hold) :
    ∀ st : GameState, TypePres st (holds.foldl updateHoldPiecePositions st) := by
  induction holds with
  | nil => intro st; exact TypePres_refl st
  | cons a l ih =>
    intro st
    rw [List.foldl_cons]
    exact TypePres_trans (TypePres_updateHoldPiecePositions st a) (ih _)

theorem TypePres_updatePiecePositions (s : GameState) :
    TypePres s (updatePiecePositions s) := by
  unfold updatePiecePositions
  split
  · exact TypePres_trans (TypePres_setPiece _ _ _ (by intro q; split <;> rfl))
      (TypePres_foldl_updateHold s.holds _)
  · exact TypePres_foldl_updateHold s.holds s

theorem TypePres_layoutStage (input : Input) (s : GameState) :
    TypePres s (layoutStage input s) := by
  refine ⟨?_, fun pid p h => ⟨p, h, rfl⟩⟩
  show (List.mapIdx _ s.holds).map holdCore = s.holds.map holdCore
  rw [List.mapIdx_eq_enum_map, List.map_map]
  conv_rhs => rw [← List.enum_map_snd s.holds, List.map_map]
  refine List.map_congr_left ?_
  intro a _
  obtain ⟨i, hold⟩ := a
  by_cases hi : i < 3 <;> simp [Function.uncurry, holdCore, hi]

theorem HoldInv_eraseSlot (s : GameState) (pid : Nat) (j : Nat) (hinv : HoldInv s) :
    HoldInv { s with holds := modifyIdx s.holds j fun h =>
        let ps := h.pieces.erase pid
        { h with pieces := ps, type := if ps.isEmpty then none else h.type } } := by
  intro h' hmem
  rcases mem_modifyIdx defaultHold s.holds j _ h' hmem with hin | ⟨hj, heq⟩
  · obtain ⟨hl, he, ha⟩ := hinv h' hin
    refine ⟨hl, he, ?_⟩
    intro r hr
    obtain ⟨p, hp, ht⟩ := ha r hr
    exact ⟨p, hp, ht⟩
  · have hmem0 : s.holds.getD j defaultHold ∈ s.holds := by
      rw [List.getD_eq_getElem s.holds defaultHold hj]
      exact List.getElem_mem hj
    obtain ⟨hl, he, ha⟩ := hinv (s.holds.getD j defaultHold) hmem0
    rw [heq]
    refine ⟨?_, ?_, ?_⟩
    · exact le_trans (List.Sublist.length_le (List.erase_sublist pid _)) hl
    · intro hps
      show (if ((s.holds.getD j defaultHold).pieces.erase pid).isEmpty then none
          else (s.holds.getD j defaultHold).type) = none
      rw [if_pos (List.isEmpty_iff.mpr hps)]
    · intro r hr
      have hr0 : r ∈ (s.holds.getD j defaultHold).pieces := List.mem_of_mem_erase hr
      obtain ⟨p, hp, ht⟩ := ha r hr0
      refine ⟨p, hp, ?_⟩
      show (if ((s.holds.getD j defaultHold).pieces.erase pid).isEmpty then none
          else (s.holds.getD j defaultHold).type) = some p.type
      rw [if_neg (by simp only [List.isEmpty_iff]; exact List.ne_nil_of_mem hr)]
      exact ht

theorem HoldInv_push (s : GameState) (i : Nat) (pid : Nat) (t : Tet) (q : Piece)
    (hinv : HoldInv s)
    (hlen : (s.holds.getD i defaultHold).pieces.length < MAX_PER_HOLD)
    (htype : (s.holds.getD i defaultHold).type = none ∨
      (s.holds.getD i defaultHold).type = some t)
    (hlook : lookupPiece s pid = some q) (hq : q.type = t) :
    HoldInv { s with holds := modifyIdx s.holds i fun h =>
        { h with pieces := h.pieces ++ [pid], type := some t } } := by
  intro h' hmem
  rcases mem_modifyIdx defaultHold s.holds i _ h' hmem with hin | ⟨hi, heq⟩
  · obtain ⟨hl, he, ha⟩ := hinv h' hin
    refine ⟨hl, he, ?_⟩
    intro r hr
    obtain ⟨p, hp, ht⟩ := ha r hr
    exact ⟨p, hp, ht⟩
  · have hmem0 : s.holds.getD i defaultHold ∈ s.holds := by
      rw [List.getD_eq_getElem s.holds defaultHold hi]
      exact List.getElem_mem hi
    obtain ⟨hl, he, ha⟩ := hinv (s.holds.getD i defaultHold) hmem0
    rw [heq]
    refine ⟨?_, ?_, ?_⟩
    · show ((s.holds.getD i defaultHold).pieces ++ [pid]).length ≤ MAX_PER_HOLD
      rw [List.length_append]
      simp only [List.length_singleton]
      omega
    · intro habs
      exact absurd habs (by simp)
    · intro r hr
      rcases List.mem_append.mp hr with hr | hr
      · obtain ⟨p, hp, ht⟩ := ha r hr
        refine ⟨p, hp, ?_⟩
        show some t = some p.type
        rcases htype with h0 | h0
        · rw [h0] at ht
          exact absurd ht (by simp)
        · rw [h0] at ht
          exact ht
      · have hrp : r = pid := by simpa using hr
        subst hrp
        refine ⟨q, hlook, ?_⟩
        show some t = some q.type
        rw [hq]

theorem modifyIdx_of_ge {α : Type} :
    ∀ (l : List α) (j : Nat) (f : α → α), l.length ≤ j → modifyIdx l j f = l := by
  intro l
  induction l with
  | nil => intro j f _; rfl
  | cons a t ih =>
    intro j f h
    cases j with
    | zero => simp at h
    | succ n =>
      show a :: modifyIdx t n f = a :: t
      rw [ih n f (by simpa using h)]

theorem pieces_removeFromHolds (s : GameState) (pid : Nat) :
    (removeFromHolds s pid).pieces = s.pieces := by
  unfold removeFromHolds
  split <;> rfl

theorem removeFromHolds_slot (s : GameState) (pid : Nat) (i : Nat) :
    ((removeFromHolds s pid).holds.getD i defaultHold).pieces.length ≤
        (s.holds.getD i defaultHold).pieces.length ∧
      (((removeFromHolds s pid).holds.getD i defaultHold).type =
          (s.holds.getD i defaultHold).type ∨
        ((removeFromHolds s pid).holds.getD i defaultHold).type = none) := by
  unfold removeFromHolds
  split
  · exact ⟨le_refl _, Or.inl rfl⟩
  · rename_i j hj
    show ((modifyIdx s.holds j _).getD i defaultHold).pieces.length ≤ _ ∧ _
    by_cases hij : i = j
    · subst hij
      by_cases hlt : i < s.holds.length
      · rw [getD_modifyIdx_self defaultHold s.holds i _ hlt]
        refine ⟨List.Sublist.length_le (List.erase_sublist pid _), ?_⟩
        by_cases hemp : ((s.holds.getD i defaultHold).pieces.erase pid).isEmpty = true
        · refine Or.inr ?_
          show (if ((s.holds.getD i defaultHold).pieces.erase pid).isEmpty then none
              else (s.holds.getD i defaultHold).type) = none
          rw [if_pos hemp]
        · refine Or.inl ?_
          show (if ((s.holds.getD i defaultHold).pieces.erase pid).isEmpty then none
              else (s.holds.getD i defaultHold).type) = (s.holds.getD i defaultHold).type
          rw [if_neg hemp]
      · rw [modifyIdx_of_ge s.holds i _ (by omega)]
        exact ⟨le_refl _, Or.inl rfl⟩
    · rw [getD_modifyIdx_ne defaultHold s.holds i j _ hij]
      exact ⟨le_refl _, Or.inl rfl⟩

theorem HoldInv_removeFromHolds (s : GameState) (pid : Nat) (hinv : HoldInv s) :
    HoldInv (removeFromHolds s pid) := by
  unfold removeFromHolds
  split
  · exact hinv
  · exact HoldInv_eraseSlot s pid _ hinv

theorem HoldInv_handleDrop (now : ℚ) (s : GameState) (pid : Nat) (x y : ℚ)
    (hinv : HoldInv s) : HoldInv (handleDrop now s pid x y) := by
  simp only [handleDrop]
  split
  · exact hinv
  rename_i piece hlook
  split
  · rename_i i hfind
    split
    · rename_i hcan
      simp only [canAddHold, Bool.and_eq_true, Bool.or_eq_true, decide_eq_true_eq,
        beq_iff_eq] at hcan
      obtain ⟨hlen, htype⟩ := hcan
      split
      · have hinv2 : HoldInv (setPiece
            { s with currentPiece := none, lastHoldTime := now, pendingSpawn := true }
            pid fun q => { q with inPlayZone := false }) :=
          HoldInv_of_TypePres
            (TypePres_trans (TypePres_of_eq rfl rfl)
              (TypePres_setPiece _ _ _ (by intro q; rfl))) hinv
        have hlp : lookupPiece (setPiece
            { s with currentPiece := none, lastHoldTime := now, pendingSpawn := true }
            pid fun q => { q with inPlayZone := false }) pid =
            some { piece with inPlayZone := false } := by
          rw [lookupPiece_setPiece, if_pos rfl]
          have h0 : lookupPiece
              { s with currentPiece := none, lastHoldTime := now, pendingSpawn := true }
              pid = some piece := hlook
          rw [h0]
          rfl
        exact HoldInv_push _ i pid piece.type { piece with inPlayZone := false }
          hinv2 hlen htype hlp rfl
      · have hinv1 := HoldInv_removeFromHolds s pid hinv
        have hinv2 : HoldInv (setPiece (removeFromHolds s pid) pid
            fun q => { q with inPlayZone := false }) :=
          HoldInv_of_TypePres (TypePres_setPiece _ _ _ (by intro q; rfl)) hinv1
        obtain ⟨hslotlen, hslottype⟩ := removeFromHolds_slot s pid i
        have hlen2 : ((removeFromHolds s pid).holds.getD i defaultHold).pieces.length <
            MAX_PER_HOLD := lt_of_le_of_lt hslotlen hlen
        have htype2 : ((removeFromHolds s pid).holds.getD i defaultHold).type = none ∨
            ((removeFromHolds s pid).holds.getD i defaultHold).type = some piece.type := by
          rcases hslottype with h0 | h0
          · rw [h0]
            exact htype
          · exact Or.inl h0
        have hlp : lookupPiece (setPiece (removeFromHolds s pid) pid
            fun q => { q with inPlayZone := false }) pid =
            some { piece with inPlayZone := false } := by
          rw [lookupPiece_setPiece, if_pos rfl,
            lookupPiece_congr (pieces_removeFromHolds s pid) pid, hlook]
          rfl
        exact HoldInv_push _ i pid piece.type { piece with inPlayZone := false }
          hinv2 hlen2 htype2 hlp rfl
    · exact hinv
  · rename_i hfind
    split
    · split
      · exact hinv
      · rename_i j hcont
        have hinv1 := HoldInv_eraseSlot s pid j hinv
        split
        · rename_i cid hcurc
          split
          · rename_i cur hlc
            split
            · split
              · rename_i hinz hcan2
                simp only [canAddHold, Bool.and_eq_true, Bool.or_eq_true, decide_eq_true_eq,
                  beq_iff_eq] at hcan2
                obtain ⟨hlen2, htype2⟩ := hcan2
                have hinv' : HoldInv (setPiece
                    { s with holds := modifyIdx s.holds j fun h =>
                        let ps := h.pieces.erase pid
                        { h with pieces := ps, type := if ps.isEmpty then none else h.type } }
                    cid fun q => { q with inPlayZone := false }) :=
                  HoldInv_of_TypePres (TypePres_setPiece _ _ _ (by intro q; rfl)) hinv1
                have hlp : lookupPiece (setPiece
                    { s with holds := modifyIdx s.holds j fun h =>
                        let ps := h.pieces.erase pid
                        { h with pieces := ps, type := if ps.isEmpty then none else h.type } }
                    cid fun q => { q with inPlayZone := false }) cid =
                    some { cur with inPlayZone := false } := by
                  rw [lookupPiece_setPiece, if_pos rfl]
                  have h0 : lookupPiece { s with holds := modifyIdx s.holds j fun h =>
                      let ps := h.pieces.erase pid
                      { h with pieces := ps, type := if ps.isEmpty then none else h.type } }
                      cid = some cur := hlc
                  rw [h0]
                  rfl
                have hinv2 := HoldInv_push _ j cid cur.type { cur with inPlayZone := false }
                  hinv' hlen2 htype2 hlp rfl
                exact HoldInv_of_TypePres
                  (TypePres_trans (TypePres_of_eq rfl rfl)
                    (TypePres_setPiece _ _ _ (by intro q; rfl))) hinv2
              · exact HoldInv_of_TypePres
                  (TypePres_trans (TypePres_of_eq rfl rfl)
                    (TypePres_setPiece _ _ _ (by intro q; rfl))) hinv1
            · exact HoldInv_of_TypePres
                (TypePres_trans (TypePres_of_eq rfl rfl)
                  (TypePres_setPiece _ _ _ (by intro q; rfl))) hinv1
          · exact HoldInv_of_TypePres
              (TypePres_trans (TypePres_of_eq rfl rfl)
                (TypePres_setPiece _ _ _ (by intro q; rfl))) hinv1
        · exact HoldInv_of_TypePres
            (TypePres_trans (TypePres_of_eq rfl rfl)
              (TypePres_setPiece _ _ _ (by intro q; rfl))) hinv1
    · exact hinv

theorem HoldInv_handleHandSide (rm : RMath) (input : Input) (side : Side) (s : GameState)
    (hinv : HoldInv s) : HoldInv (handleHandSide rm input side s) := by
  simp only [handleHandSide]
  repeat' split
  all_goals first
    | exact hinv
    | exact HoldInv_of_TypePres (TypePres_setInter _ _ _) hinv
    | exact HoldInv_of_TypePres
        (TypePres_trans (TypePres_setPiece _ _ _ (by intro q; rfl)) (TypePres_setInter _ _ _))
        hinv
    | exact HoldInv_of_TypePres
        (TypePres_trans (TypePres_setInter _ _ _) (TypePres_setInter _ _ _)) hinv
    | exact HoldInv_of_TypePres
        (TypePres_trans
          (TypePres_trans (TypePres_setInter _ _ _) (TypePres_setPiece _ _ _ (by intro q; rfl)))
          (TypePres_setInter _ _ _)) hinv
    | exact HoldInv_of_TypePres (TypePres_setInter _ _ _)
        (HoldInv_handleDrop _ _ _ _ _
          (HoldInv_of_TypePres
            (TypePres_trans (TypePres_setInter _ _ _)
              (TypePres_setPiece _ _ _ (by intro q; rfl)))
            hinv))
    | exact HoldInv_of_TypePres
        (TypePres_trans (TypePres_setInter _ _ _)
          (TypePres_trans (TypePres_hardDrop _) (TypePres_setInter _ _ _))) hinv
    | exact HoldInv_of_TypePres
        (TypePres_trans (TypePres_setInter _ _ _)
          (TypePres_playZoneControl _ _ _ _ _ _ _)) hinv
    | exact HoldInv_of_TypePres
        (TypePres_trans
          (TypePres_trans (TypePres_setInter _ _ _) (TypePres_of_eq rfl rfl))
          (TypePres_setPiece _ _ _ (by intro q; rfl))) hinv
    | exact HoldInv_of_TypePres
        (TypePres_trans (TypePres_setInter _ _ _) (TypePres_of_eq rfl rfl)) hinv

theorem HoldInv_handleHandInteraction (rm : RMath) (input : Input) (s : GameState)
    (hinv : HoldInv s) : HoldInv (handleHandInteraction rm input s) := by
  unfold handleHandInteraction
  have h0 : HoldInv { s with isDraggingPiece := false, draggedPiece := none } :=
    HoldInv_of_TypePres (TypePres_of_eq rfl rfl) hinv
  have h1 := HoldInv_handleHandSide rm input Side.left _ h0
  have h2 := HoldInv_handleHandSide rm input Side.right _ h1
  have h3 := HoldInv_of_TypePres (TypePres_animatePieces rm _) h2
  exact HoldInv_of_TypePres (TypePres_holdTargetingStep _) h3

theorem HoldInv_update (rm : RMath) (input : Input) (s : GameState)
    (hinv : HoldInv s) : HoldInv (update rm input s) := by
  unfold update
  have h1 := HoldInv_of_TypePres (TypePres_layoutStage input s) hinv
  have h2 := HoldInv_of_TypePres (TypePres_zoneEntryStage _) h1
  have h3 := HoldInv_of_TypePres (TypePres_pendingSpawnStage input.time _) h2
  have h4 : HoldInv (if input.handsPresent then
      handleHandInteraction rm input
        (pendingSpawnStage input.time (zoneEntryStage (layoutStage input s)))
      else pendingSpawnStage input.time (zoneEntryStage (layoutStage input s))) := by
    split
    · exact HoldInv_handleHandInteraction rm input _ h3
    · exact h3
  have h5 := HoldInv_of_TypePres (TypePres_autoDropStage input.time _) h4
  exact HoldInv_of_TypePres (TypePres_updatePiecePositions _) h5

theorem HoldInv_initState (bag : List Tet) : HoldInv (initState bag) := by
  intro h hmem
  have hmem' : h ∈ [initHold Side.left, initHold Side.left, initHold Side.left,
      initHold Side.right, initHold Side.right, initHold Side.right] := hmem
  have hcases : h = initHold Side.left ∨ h = initHold Side.right := by
    simp only [List.mem_cons, List.not_mem_nil, or_false] at hmem'
    tauto
  rcases hcases with h0 | h0 <;> subst h0 <;>
    exact ⟨Nat.zero_le _, fun _ => rfl, fun pid hpid => absurd hpid (by simp [initHold])⟩

/-- C2: in every state reachable from the constructor by any sequence of
`update` calls (with any hand inputs and any transcendental oracle), every
hold slot's stack has length at most `MAX_PER_HOLD` (3), an empty slot's type
tag is null, and every piece stored in a slot exists in the heap and has
exactly the slot's tagged type (so a non-empty slot never mixes types). -/
theorem C2_hold_invariant (s : GameState) (h : Reachable s) : HoldInv s := by
  induction h with
  | init bag => exact HoldInv_initState bag
  | step rm input s hr ih => exact HoldInv_update rm input s ih

/-- Witness for C2: the invariant holds at the constructor state itself. -/
theorem C2_hold_invariant_witness : HoldInv (initState []) :=
  C2_hold_invariant (initState []) (Reachable.init [])
